import Mathlib

/-!
Verification development for the ENM-Protein-Predictor data pipeline
(`data_utils.py`).

The Python module is shallowly embedded here:

* a dataframe cell is a `Val`: a rational number (Python floats are modelled
  exactly by rationals), the missing-value marker NaN, or a string;
* a pandas `DataFrame` is column-major: a list of named columns, each a list
  of cell values; row indexes are positional (the pipeline only ever works
  with the default `RangeIndex`, and `reset_index(drop=True)` keeps it so);
* the dynamically typed attribute slots of the `data_base` class hold a
  `PyObj` (the `None` sentinel, a string, a dataframe, a series, or a
  numpy-style value array);
* the filesystem seen by `os.path.isfile` / `pd.read_csv` is a map from
  paths to the parsed dataframe of an existing, parsable csv file;
* Python exceptions (KeyError, TypeError, ZeroDivisionError, ValueError,
  AssertionError) are `Except.error` with a descriptive message.
-/

namespace ENM

/-- A dataframe cell: a numeric value, the missing-value marker, or a string. -/
inductive Val where
  | rat (q : ℚ)
  | nan
  | str (s : String)
deriving DecidableEq

/-- `np.isnan` / pandas missingness test on a cell. -/
def Val.isNan : Val → Bool
  | .nan => true
  | _ => false

/-- Is the cell a string (non-numeric for numpy purposes)? -/
def Val.isStr : Val → Bool
  | .str _ => true
  | _ => false

/-- Numeric view of a cell. -/
def Val.toRat? : Val → Option ℚ
  | .rat q => some q
  | _ => none

/-- A pandas dataframe, column-major: named columns in order. -/
structure DataFrame where
  cols : List (String × List Val)
deriving DecidableEq

/-- Number of columns (`len(list(dataframe))`). -/
def DataFrame.ncols (df : DataFrame) : Nat := df.cols.length

/-- Number of rows; for a well-formed dataframe every column has this length. -/
def DataFrame.nrows (df : DataFrame) : Nat :=
  match df.cols with
  | [] => 0
  | c :: _ => c.2.length

/-- Well-formedness: all columns have the same length. -/
def DataFrame.Wf (df : DataFrame) : Prop :=
  ∀ c ∈ df.cols, c.2.length = df.nrows

instance (df : DataFrame) : Decidable df.Wf := by
  unfold DataFrame.Wf; infer_instance

/-- Column lookup (`df[name]`); `none` models a KeyError. -/
def DataFrame.getCol? (df : DataFrame) (n : String) : Option (List Val) :=
  (df.cols.find? (fun c => c.1 == n)).map (fun c => c.2)

/-- Column lookup with default. -/
def DataFrame.getColD (df : DataFrame) (n : String) : List Val :=
  (df.getCol? n).getD []

/-- Does the dataframe have a column of this name? -/
def DataFrame.hasCol (df : DataFrame) (n : String) : Bool :=
  (df.getCol? n).isSome

/-!  ## Column Mask Applier (`apply_RFECV_mask`, `remove_extra_entries`)  -/

/-- Python's `str.strip()`: remove leading and trailing whitespace. -/
def pyStrip (s : String) : String :=
  ⟨((s.data.dropWhile Char.isWhitespace).reverse.dropWhile Char.isWhitespace).reverse⟩

/-- Is the token the literal "True" or "False" after trimming whitespace? -/
def isBoolTok (s : String) : Bool :=
  pyStrip s == "True" || pyStrip s == "False"

/-- `remove_extra_entries(mask)`: walking the list from its end, delete every
token that is not "True"/"False" (after trimming) and stop at the first
boolean token. -/
def remove_extra_entries (mask : List String) : List String :=
  ((mask.reverse).dropWhile (fun c => !(isBoolTok c))).reverse

/-- The indices appended by `for i, col in enumerate(column_mask): if
col.strip() == 'False': column_indexes.append(i)`, starting the count at `k`. -/
def falseIndexesFrom (k : Nat) : List String → List Nat
  | [] => []
  | t :: rest =>
    if pyStrip t == "False" then k :: falseIndexesFrom (k + 1) rest
    else falseIndexesFrom (k + 1) rest

/-- False-token positions of a mask. -/
def falseIndexes (mask : List String) : List Nat := falseIndexesFrom 0 mask

/-- Drop the columns whose position (counted from `k`) is in `idxs`; models
`dataframe.drop(dataframe.columns[column_indexes], axis=1)` (column names are
assumed distinct, as in the repository's input format, so dropping by label
equals dropping by position; all collected indices are in range, see
`apply_RFECV_mask`). -/
def dropColsFrom (idxs : List Nat) (k : Nat) : List (String × List Val) → List (String × List Val)
  | [] => []
  | c :: rest =>
    if idxs.contains k then dropColsFrom idxs (k + 1) rest
    else c :: dropColsFrom idxs (k + 1) rest

/-- Positional column drop on a dataframe. -/
def DataFrame.dropColsAt (df : DataFrame) (idxs : List Nat) : DataFrame :=
  ⟨dropColsFrom idxs 0 df.cols⟩

/-- The AssertionError message of `apply_RFECV_mask`'s length check. -/
def maskLenError (m n : Nat) : String :=
  "mask length " ++ toString m ++ " does not match dataframe length " ++ toString n

/-- The per-dataframe loop of `apply_RFECV_mask`: `column_mask` is the current
mask (it is rebound when `remove_extra_entries` runs), `column_indexes` the
index list accumulated so far — it is never reset between dataframes. -/
def applyMaskLoop (column_mask : List String) (column_indexes : List Nat) :
    List DataFrame → Except String (List DataFrame)
  | [] => .ok []
  | df :: rest =>
    let m := if column_mask.length ≠ df.ncols then remove_extra_entries column_mask
             else column_mask
    if m.length ≠ df.ncols then .error (maskLenError m.length df.ncols)
    else
      let idxs := column_indexes ++ falseIndexes m
      match applyMaskLoop m idxs rest with
      | .ok out => .ok (df.dropColsAt idxs :: out)
      | .error e => .error e

/-- `apply_RFECV_mask(mask, *args)` with the mask file already read into its
token list (the file's single csv row). -/
def apply_RFECV_mask (column_mask : List String) (args : List DataFrame) :
    Except String (List DataFrame) :=
  applyMaskLoop column_mask [] args

/-- Modelled from the spec's words for claim C3 only (the source's
`remove_extra_entries` never consults the length): strip non-boolean tokens
from the END of the mask until the length equals `ncols` or a boolean token
is found.  Works on the reversed mask. -/
def stripUntilClaim (ncols : Nat) : List String → List String
  | [] => []
  | t :: rest =>
    if rest.length + 1 = ncols then t :: rest
    else if isBoolTok t then t :: rest
    else stripUntilClaim ncols rest

/-- The claim-C3 reconciliation step, as worded in the spec. -/
def reconcileClaim (ncols : Nat) (mask : List String) : List String :=
  if mask.length = ncols then mask
  else (stripUntilClaim ncols mask.reverse).reverse

/-!  ## Shared helpers (`fill_nan`, `one_hot_encode`, `normalize_and_reshape`)  -/

/-- The accumulation loop of `fill_nan`: `count`/`total` over the non-missing
entries; `np.isnan` on a string raises a TypeError. -/
def sumCount : List Val → Except String (ℚ × Nat)
  | [] => .ok (0, 0)
  | .str _ :: _ => .error "TypeError: isnan not supported for strings"
  | .nan :: rest => sumCount rest
  | .rat q :: rest =>
    match sumCount rest with
    | .ok (total, count) => .ok (total + q, count + 1)
    | .error e => .error e

/-- Replace the values of the (first) column named `n`; models the column
assignment `data[column] = series` when the column exists. -/
def DataFrame.setCol (df : DataFrame) (n : String) (vs : List Val) : DataFrame :=
  ⟨df.cols.map (fun c => if c.1 == n then (c.1, vs) else c)⟩

/-- `fill_nan(data, column)`: fill the missing entries of `column` with
`total/count` accumulated over its non-missing entries.  `count == 0` is
Python's ZeroDivisionError; a missing column is a KeyError. -/
def fill_nan (data : DataFrame) (column : String) : Except String DataFrame :=
  match data.getCol? column with
  | Option.none => .error ("KeyError: " ++ column)
  | some vs =>
    match sumCount vs with
    | .error e => .error e
    | .ok (total, count) =>
      if count = 0 then .error "ZeroDivisionError: division by zero"
      else
        .ok (data.setCol column
          (vs.map (fun v => if v.isNan then Val.rat (total / (count : ℚ)) else v)))

/-- Display name of a category value, used in the dummy-column names produced
by `pd.get_dummies(..., prefix=category)`. -/
def valName : Val → String
  | .rat q => toString q
  | .nan => "nan"
  | .str s => s

/-- The distinct observed (non-missing) categories of a column.
`pd.get_dummies` sorts its categories; the order of the dummy columns is
abstracted here, no claim depends on it. -/
def observedCats (vs : List Val) : List Val :=
  (vs.filter (fun v => !v.isNan)).dedup

/-- The indicator columns `pd.get_dummies(df[category], prefix=category)`
produces: one 0/1 column per distinct observed category; a missing entry gets
a 0 in every indicator column. -/
def dummyCols (category : String) (vs : List Val) : List (String × List Val) :=
  (observedCats vs).map
    (fun c => (category ++ "_" ++ valName c,
               vs.map (fun v => if v = c then Val.rat 1 else Val.rat 0)))

/-- `one_hot_encode(dataframe, category)`: concat the dummy columns to the
dataframe, then drop the original categorical column (in pandas, dropping a
label removes every column of that name). -/
def one_hot_encode (df : DataFrame) (category : String) : Except String DataFrame :=
  match df.getCol? category with
  | Option.none => .error ("KeyError: " ++ category)
  | some vs =>
    .ok ⟨(df.cols ++ dummyCols category vs).filter (fun c => !(c.1 == category))⟩

/-- Observed minimum of a column's non-missing values (sklearn ignores NaN). -/
def colMin (vs : List Val) : ℚ :=
  match vs.filterMap Val.toRat? with
  | [] => 0
  | q :: qs => qs.foldl min q

/-- Observed maximum of a column's non-missing values. -/
def colMax (vs : List Val) : ℚ :=
  match vs.filterMap Val.toRat? with
  | [] => 0
  | q :: qs => qs.foldl max q

/-- One column of `MinMaxScaler().fit_transform`: `(x - min) / (max - min)`,
with sklearn's `_handle_zeros_in_scale` replacing a zero range by 1 (so a
constant column maps to all zeros); NaN entries stay NaN, an all-NaN column
stays all-NaN. -/
def minMaxCol (vs : List Val) : List Val :=
  if (vs.filterMap Val.toRat?).isEmpty then vs.map (fun _ => Val.nan)
  else
    let mn := colMin vs
    let d := if colMax vs - mn = 0 then 1 else colMax vs - mn
    vs.map (fun v =>
      match v with
      | .rat x => Val.rat ((x - mn) / d)
      | _ => Val.nan)

/-- `normalize_and_reshape(data, labels)`: min-max scale every column, rebuild
the dataframe, and put the label series in front (`pd.concat([labels, data],
axis=1)`; both sides carry the default positional index, so concat is
positional and `reset_index(drop=True)` is the identity here).  sklearn
raises if a value cannot be converted to float or if there are no samples. -/
def normalize_and_reshape (data : DataFrame) (labels : String × List Val) :
    Except String DataFrame :=
  if data.cols.any (fun c => c.2.any Val.isStr) then
    .error "ValueError: could not convert string to float"
  else if data.nrows = 0 then
    .error "ValueError: found array with 0 samples"
  else
    .ok ⟨labels :: data.cols.map (fun c => (c.1, minMaxCol c.2))⟩

/-!  ## The `data_base` class: state, getters, setters  -/

/-- A dynamically typed Python value held in a `data_base` attribute slot. -/
inductive PyObj where
  | none
  | str (s : String)
  | df (d : DataFrame)
  | series (name : String) (values : List Val)
  | arr (values : List Val)
deriving DecidableEq

/-- The attribute slots of a `data_base` instance. -/
structure DataBase where
  _raw_data : PyObj
  _clean_X_data : PyObj
  _target : PyObj
  _X_train : PyObj
  _Y_train : PyObj
  _X_test : PyObj
  _Y_test : PyObj
  _test_accession_numbers : PyObj
  _original : PyObj
  _predict : PyObj
deriving DecidableEq

/-- `data_base.__init__`: every slot is the `None` sentinel. -/
def data_base_init : DataBase :=
  ⟨.none, .none, .none, .none, .none, .none, .none, .none, .none, .none⟩

/-- The filesystem as seen by the setters: a path maps to the parsed
dataframe of an existing, parsable csv file, and to `none` otherwise. -/
def FS : Type := String → Option DataFrame

/-- `data_base.categorical_data` (class attribute). -/
def categorical_data : List String :=
  ["Enzyme Commission Number", "Particle Size", "Particle Charge",
   "Solvent Cysteine Concentration", "Solvent NaCl Concentration"]

/-- `data_base.columns_to_drop` (class attribute). -/
def columns_to_drop : List String :=
  ["Protein Length", "Sequence", "Accession Number", "Bound Fraction"]

/-- Getter `X_train`. -/
def DataBase.X_train_get (db : DataBase) : Except String PyObj :=
  if db._X_train = PyObj.none then
    .error "Initialize X_train by calling stratified_data_split()"
  else .ok db._X_train

/-- Getter `X_test`. -/
def DataBase.X_test_get (db : DataBase) : Except String PyObj :=
  if db._X_test = PyObj.none then
    .error "Initialize X_test by calling stratified_data_split()"
  else .ok db._X_test

/-- Getter `Y_train`. -/
def DataBase.Y_train_get (db : DataBase) : Except String PyObj :=
  if db._Y_train = PyObj.none then
    .error "Initialize Y_train by calling stratified_data_split()"
  else .ok db._Y_train

/-- Getter `Y_test` — the source has no `None` check here: it returns the
backing slot unconditionally. -/
def DataBase.Y_test_get (db : DataBase) : Except String PyObj :=
  .ok db._Y_test

/-- Getter `raw_data`. -/
def DataBase.raw_data_get (db : DataBase) : Except String PyObj :=
  if db._raw_data = PyObj.none then
    .error "Initialize raw data by setting raw_data=<path.csv>"
  else .ok db._raw_data

/-- Getter `clean_X_data`. -/
def DataBase.clean_X_data_get (db : DataBase) : Except String PyObj :=
  if db._clean_X_data = PyObj.none then
    .error "Initialize clean_X_data by calling clean_data()"
  else .ok db._clean_X_data

/-- Getter `original`. -/
def DataBase.original_get (db : DataBase) : Except String PyObj :=
  if db._original = PyObj.none then
    .error "Initialize original by calling clean_data()"
  else .ok db._original

/-- Getter `target`. -/
def DataBase.target_get (db : DataBase) : Except String PyObj :=
  if db._target = PyObj.none then
    .error "Initialize target by calling clean_data()"
  else .ok db._target

/-- Getter `test_accession_numbers`. -/
def DataBase.test_accession_numbers_get (db : DataBase) : Except String PyObj :=
  if db._test_accession_numbers = PyObj.none then
    .error "Initialize test_accession_numbers by calling stratified_data_split()"
  else .ok db._test_accession_numbers

/-- Getter `predict` (no check in the source). -/
def DataBase.predict_get (db : DataBase) : Except String PyObj :=
  .ok db._predict

/-- The shared setter pattern `if isinstance(path, str) and
os.path.isfile(path): self._x = self.fetch_raw_data(path) else: self._x =
path`: an existing path is loaded and parsed, any other value is stored
as-is. -/
def pathOrObject (fs : FS) (v : PyObj) : PyObj :=
  match v with
  | .str s =>
    match fs s with
    | some d => .df d
    | Option.none => .str s
  | other => other

/-- Setter `raw_data`. -/
def DataBase.raw_data_set (fs : FS) (db : DataBase) (v : PyObj) : DataBase :=
  { db with _raw_data := pathOrObject fs v }

/-- Setter `clean_X_data` (re-entering the setter with the loaded dataframe
stores it, so the net effect is the shared pattern). -/
def DataBase.clean_X_data_set (fs : FS) (db : DataBase) (v : PyObj) : DataBase :=
  { db with _clean_X_data := pathOrObject fs v }

/-- Setter `X_train`. -/
def DataBase.X_train_set (fs : FS) (db : DataBase) (v : PyObj) : DataBase :=
  { db with _X_train := pathOrObject fs v }

/-- Setter `X_test`. -/
def DataBase.X_test_set (fs : FS) (db : DataBase) (v : PyObj) : DataBase :=
  { db with _X_test := pathOrObject fs v }

/-- Setter `Y_train`. -/
def DataBase.Y_train_set (fs : FS) (db : DataBase) (v : PyObj) : DataBase :=
  { db with _Y_train := pathOrObject fs v }

/-- Setter `Y_test`. -/
def DataBase.Y_test_set (fs : FS) (db : DataBase) (v : PyObj) : DataBase :=
  { db with _Y_test := pathOrObject fs v }

/-- Setter `test_accession_numbers`: a string naming an existing file only
prints a message (nothing is stored); anything else is stored as-is. -/
def DataBase.test_accession_numbers_set (fs : FS) (db : DataBase) (v : PyObj) : DataBase :=
  match v with
  | .str s => if (fs s).isSome then db else { db with _test_accession_numbers := .str s }
  | other => { db with _test_accession_numbers := other }

/-!  ## The cleaning pipeline (`clean_raw_data`, `clean_user_test_data`)  -/

/-- Coerce a slot value to a dataframe; anything else is a Python-level type
error in the code that consumes it. -/
def asDf : PyObj → Except String DataFrame
  | .df d => .ok d
  | _ => .error "TypeError: expected a dataframe"

/-- Coerce a slot value to a value array. -/
def asArr : PyObj → Except String (List Val)
  | .arr vs => .ok vs
  | _ => .error "TypeError: expected an array"

/-- Turn an optional column into a KeyError. -/
def colOrKeyError (o : Option (List Val)) (n : String) : Except String (List Val) :=
  match o with
  | some vs => .ok vs
  | Option.none => .error ("KeyError: " ++ n)

/-- `for category in self.categorical_data: df = one_hot_encode(df, category)`. -/
def encodeAll : DataFrame → List String → Except String DataFrame
  | df, [] => .ok df
  | df, c :: rest =>
    match one_hot_encode df c with
    | .ok df2 => encodeAll df2 rest
    | .error e => .error e

/-- The column removal performed by `df.drop(column, 1)` (pandas drops every
column carrying the label). -/
def DataFrame.dropColPure (df : DataFrame) (n : String) : DataFrame :=
  ⟨df.cols.filter (fun c => !(c.1 == n))⟩

/-- Drop one column by name (`df.drop(column, 1)`); a missing label is a
KeyError. -/
def DataFrame.dropCol (df : DataFrame) (n : String) : Except String DataFrame :=
  if df.hasCol n then .ok (df.dropColPure n)
  else .error ("KeyError: " ++ n)

/-- `for column in self.columns_to_drop: df = df.drop(column, 1)`. -/
def dropAll : DataFrame → List String → Except String DataFrame
  | df, [] => .ok df
  | df, c :: rest =>
    match df.dropCol c with
    | .ok df2 => dropAll df2 rest
    | .error e => .error e

/-- `Series.mean()`: arithmetic mean over the non-missing entries, `NaN`
(`none`) for an all-missing column; strings are a TypeError. -/
def seriesMean (vs : List Val) : Except String (Option ℚ) :=
  match sumCount vs with
  | .error e => .error e
  | .ok (total, count) =>
    if count = 0 then .ok Option.none else .ok (some (total / (count : ℚ)))

/-- `data_base.clean_raw_data`.  Note the line
`self.clean_X_data['Bound Fraction'].fillna(self.clean_X_data['Bound Fraction'].mean())`:
the mean is computed but the `fillna` RESULT IS DISCARDED (no assignment, no
`inplace=True`), so the captured target keeps its missing entries. -/
def clean_raw_data (fs : FS) (db0 : DataBase) : Except String DataBase := do
  -- self.clean_X_data = self.raw_data
  let raw ← db0.raw_data_get
  let x0 ← asDf raw
  let db := db0.clean_X_data_set fs (.df x0)
  -- one hot encode categorical data
  let x1 ← encodeAll x0 categorical_data
  let db := db.clean_X_data_set fs (.df x1)
  -- self.clean_X_data['Bound Fraction'].fillna(...mean()) : value discarded
  let bf ← colOrKeyError (x1.getCol? "Bound Fraction") "Bound Fraction"
  let _ ← seriesMean bf
  -- self._target = self.clean_X_data['Bound Fraction'].to_numpy()
  let db := { db with _target := PyObj.arr bf }
  -- self.Y_train = self.target
  let db := db.Y_train_set fs (.arr bf)
  -- accession_numbers = self.clean_X_data['Accession Number']
  let accession ← colOrKeyError (x1.getCol? "Accession Number") "Accession Number"
  -- drop useless columns
  let x2 ← dropAll x1 columns_to_drop
  let db := db.clean_X_data_set fs (.df x2)
  -- fill in missing protein abundance values with the mean value
  let x3 ← fill_nan x2 "Protein Abundance"
  let db := db.clean_X_data_set fs (.df x3)
  -- self._original = self.clean_X_data
  let db := { db with _original := PyObj.df x3 }
  -- self.clean_X_data = normalize_and_reshape(self.clean_X_data, accession_numbers)
  let x4 ← normalize_and_reshape x3 ("Accession Number", accession)
  let db := db.clean_X_data_set fs (.df x4)
  -- self.X_train = self.clean_X_data
  pure (db.X_train_set fs (.df x4))

/-- `data_base.clean_user_test_data(user_data)`. -/
def clean_user_test_data (fs : FS) (db0 : DataBase) (user0 : DataFrame) :
    Except String DataBase := do
  let u1 ← encodeAll user0 categorical_data
  -- self.Y_test = user_data['Bound Fraction'].to_numpy()
  let bf ← colOrKeyError (u1.getCol? "Bound Fraction") "Bound Fraction"
  let db := db0.Y_test_set fs (.arr bf)
  let accession ← colOrKeyError (u1.getCol? "Accession Number") "Accession Number"
  let u2 ← dropAll u1 columns_to_drop
  let u3 ← fill_nan u2 "Protein Abundance"
  let u4 ← normalize_and_reshape u3 ("Accession Number", accession)
  let db := db.X_test_set fs (.df u4)
  -- self.test_accession_numbers = self.X_test['Accession Number']
  let acc2 ← colOrKeyError (u4.getCol? "Accession Number") "Accession Number"
  let db := db.test_accession_numbers_set fs (.series "Accession Number" acc2)
  -- self.X_train = self.X_train.drop('Accession Number', 1)  (getter may raise)
  let xtr ← db.X_train_get
  let xtrDf ← asDf xtr
  let xtr2 ← xtrDf.dropCol "Accession Number"
  let db := db.X_train_set fs (.df xtr2)
  -- self.X_test = self.X_test.drop('Accession Number', 1)
  let xte2 ← u4.dropCol "Accession Number"
  pure (db.X_test_set fs (.df xte2))

/-- Setter `predict`: the source calls `os.path.isfile(path)` WITHOUT an
`isinstance(path, str)` guard, so a non-path value (a dataframe, an array,
`None`, …) raises a TypeError from `os.stat`; an existing path is loaded and
then immediately cleaned via `clean_user_test_data`; any other string is
stored as-is. -/
def DataBase.predict_set (fs : FS) (db : DataBase) (v : PyObj) : Except String DataBase :=
  match v with
  | .str s =>
    match fs s with
    | some d => clean_user_test_data fs { db with _predict := .df d } d
    | Option.none => .ok { db with _predict := .str s }
  | _ => .error "TypeError: stat: path should be string, bytes, os.PathLike or integer"

/-!  ## `data_base.data_split`

`KFold(n_splits=5, shuffle=True)` is modelled by a parameter `perm`, the
shuffled order of the row indices (`np.random.permutation(n)` under the
per-call random seed).  Fold `k`'s test set is the `k`-th contiguous chunk of
`perm` (the first `n % 5` chunks have size `n / 5 + 1`, the rest `n / 5`);
its train set is the ascending complement, exactly as sklearn computes it
from the boolean test mask. -/

/-- Fold `k`'s test indices: the `k`-th chunk of the shuffled index order. -/
def testFold (perm : List Nat) (k : Nat) : List Nat :=
  let n := perm.length
  let base := n / 5
  let rem := n % 5
  (perm.drop (k * base + min k rem)).take (base + if k < rem then 1 else 0)

/-- Fold `k`'s train indices: the ascending complement of the test chunk. -/
def trainFold (perm : List Nat) (k : Nat) : List Nat :=
  (List.range perm.length).filter (fun i => !((testFold perm k).contains i))

/-- The five `(train_index, test_index)` pairs yielded by `kf.split`. -/
def kfSplits (perm : List Nat) : List (List Nat × List Nat) :=
  (List.range 5).map (fun k => (trainFold perm k, testFold perm k))

/-- `df.iloc[list(idxs)]`: the rows at the given positions, in that order
(positions are in range whenever `idxs` comes from a permutation of
`range df.nrows` and `df` is well-formed, which is the only use here). -/
def DataFrame.ilocRows (df : DataFrame) (idxs : List Nat) : DataFrame :=
  ⟨df.cols.map (fun c => (c.1, idxs.map (fun i => c.2.getD i Val.nan)))⟩

/-- `target[index_array]` on the numpy target vector. -/
def takeIdx (vs : List Val) (idxs : List Nat) : List Val :=
  idxs.map (fun i => vs.getD i Val.nan)

/-- One iteration of `for train_index, test_index in kf.split(...)`: the four
assignments (each through its setter). -/
def splitAssign (fs : FS) (cdf : DataFrame) (tgt : List Val)
    (db : DataBase) (p : List Nat × List Nat) : DataBase :=
  let db := db.X_train_set fs (.df (cdf.ilocRows p.1))
  let db := db.X_test_set fs (.df (cdf.ilocRows p.2))
  let db := db.Y_train_set fs (.arr (takeIdx tgt p.1))
  db.Y_test_set fs (.arr (takeIdx tgt p.2))

/-- `data_base.data_split`. -/
def data_split (fs : FS) (db0 : DataBase) (perm : List Nat) :
    Except String DataBase :=
  -- assert self.predict is None
  if db0._predict ≠ PyObj.none then
    .error "Remove data_split() if using your own data"
  else do
  let cxd ← db0.clean_X_data_get
  let cdf ← asDf cxd
  -- KFold demands n_splits <= n_samples
  if cdf.nrows < 5 then
    .error "ValueError: Cannot have number of splits greater than the number of samples"
  else do
  let tgtObj ← db0.target_get
  let tgt ← asArr tgtObj
  -- the loop body reassigns the four slots on every fold: the last wins
  let db := (kfSplits perm).foldl (splitAssign fs cdf tgt) db0
  -- self.test_accession_numbers = self.X_test['Accession Number']
  let xte ← db.X_test_get
  let xteDf ← asDf xte
  let acc ← colOrKeyError (xteDf.getCol? "Accession Number") "Accession Number"
  let db := db.test_accession_numbers_set fs (.series "Accession Number" acc)
  -- self.X_train = self.X_train.drop('Accession Number', 1)
  let xtr ← db.X_train_get
  let xtrDf ← asDf xtr
  let xtr2 ← xtrDf.dropCol "Accession Number"
  let db := db.X_train_set fs (.df xtr2)
  -- self.X_test = self.X_test.drop('Accession Number', 1)
  let xte2 ← xteDf.dropCol "Accession Number"
  pure (db.X_test_set fs (.df xte2))

/-!  ## Validity of a raw input, and concrete inputs for the theorems  -/

/-- No string value anywhere in the dataframe (everything numeric/NaN). -/
def NoStrCols (df : DataFrame) : Prop :=
  ∀ c ∈ df.cols, c.2.all (fun v => !(Val.isStr v)) = true

instance (df : DataFrame) : Decidable (NoStrCols df) := by
  unfold NoStrCols; infer_instance

/-- Every column of the dataframe has length `N` (`Wf` relative to a fixed
row count, stable under the pipeline stages). -/
def ColsLen (N : Nat) (df : DataFrame) : Prop :=
  ∀ c ∈ df.cols, c.2.length = N

/-- A valid raw input in the repository's input-file format: well-formed and
non-empty, carrying the categorical columns, the columns slated for removal
(`Bound Fraction`, `Accession Number`, `Protein Length`, `Sequence`) and
`Protein Abundance`; every feature column (not categorical, not slated for
removal) is numeric/NaN, the target column is numeric/NaN, and
`Protein Abundance` has at least one non-missing value. -/
def ValidRaw (df : DataFrame) : Prop :=
  df.Wf ∧ 1 ≤ df.nrows ∧
  (∀ c ∈ categorical_data, df.hasCol c = true) ∧
  (∀ c ∈ columns_to_drop, df.hasCol c = true) ∧
  df.hasCol "Protein Abundance" = true ∧
  (∀ c ∈ df.cols, c.1 ∉ categorical_data → c.1 ∉ columns_to_drop →
    c.2.all (fun v => !(Val.isStr v)) = true) ∧
  (df.getColD "Bound Fraction").all (fun v => !(Val.isStr v)) = true ∧
  (df.getColD "Protein Abundance").any (fun v => !(v.isNan)) = true

instance (df : DataFrame) : Decidable (ValidRaw df) := by
  unfold ValidRaw; infer_instance

/-- An empty filesystem (no path names an existing file). -/
def fs0 : FS := fun _ => Option.none

/-- A 2-column, 1-row dataframe for the mask-applier theorems. -/
def dfAB : DataFrame := ⟨[("A", [Val.rat 0]), ("B", [Val.rat 0])]⟩

/-- A dataframe whose categorical column `C` has one observed category and
one missing entry (for claim C8). -/
def dfC8 : DataFrame :=
  ⟨[("C", [Val.str "a", Val.nan]), ("W", [Val.rat 5, Val.rat 6])]⟩

/-- A 2-row raw input in the repository's format whose `Bound Fraction`
column has one missing entry and whose `Protein Abundance` column has one
missing entry. -/
def exampleRaw : DataFrame :=
  ⟨[("Enzyme Commission Number", [Val.str "1.1.1.1", Val.str "2.2.2.2"]),
    ("Particle Size", [Val.rat 10, Val.rat 10]),
    ("Particle Charge", [Val.str "positive", Val.str "negative"]),
    ("Solvent Cysteine Concentration", [Val.rat 0, Val.rat 0]),
    ("Solvent NaCl Concentration", [Val.rat 0, Val.rat (8/10)]),
    ("Bound Fraction", [Val.rat 1, Val.nan]),
    ("Accession Number", [Val.str "P00734", Val.str "P02768"]),
    ("Protein Length", [Val.rat 100, Val.rat 200]),
    ("Sequence", [Val.str "MAHV", Val.str "GGKW"]),
    ("Protein Abundance", [Val.rat 2, Val.nan])]⟩

/-- A fresh `data_base` whose `raw_data` was assigned the example raw input. -/
def dbExample : DataBase :=
  DataBase.raw_data_set fs0 data_base_init (PyObj.df exampleRaw)

/-- A clean feature table for the split theorems: identifier column plus one
feature column, 5 rows. -/
def cdfSplit : DataFrame :=
  ⟨[("Accession Number",
     [Val.str "P1", Val.str "P2", Val.str "P3", Val.str "P4", Val.str "P5"]),
    ("F", [Val.rat 1, Val.rat 2, Val.rat 3, Val.rat 4, Val.rat 5])]⟩

/-- The target vector matching `cdfSplit`. -/
def tgtSplit : List Val :=
  [Val.rat 1, Val.rat 2, Val.rat 3, Val.rat 4, Val.rat 5]

/-- A `data_base` ready for `data_split`. -/
def dbSplit : DataBase :=
  { data_base_init with
      _clean_X_data := PyObj.df cdfSplit
      _target := PyObj.arr tgtSplit }

/-- A `data_base` whose predict-override is set. -/
def dbPredictSet : DataBase :=
  { data_base_init with _predict := PyObj.str "my_data.csv" }

/-- Columns for the fill/minmax witnesses. -/
def dfAllNan : DataFrame := ⟨[("P", [Val.nan, Val.nan])]⟩

/-- A column with one missing and one present value. -/
def dfHalfNan : DataFrame := ⟨[("P", [Val.rat 2, Val.nan])]⟩

/-- A filesystem with a single loadable csv file. -/
def fsOne : FS := fun s => if s = "data.csv" then some dfAB else Option.none

/-- A one-column numeric dataframe for the normalization witness. -/
def dfNorm : DataFrame := ⟨[("F", [Val.rat 1, Val.rat 3])]⟩

deriving instance DecidableEq for Except

/-!  ## General list lemmas  -/

attribute [local semireducible] Rat.add Rat.mul Rat.inv Rat.sub

theorem contains_iff_mem_nat (l : List Nat) (a : Nat) : l.contains a = true ↔ a ∈ l :=
  List.elem_iff

theorem dropWhile_append_of_all {α : Type} (f : α → Bool) :
    ∀ (a b : List α), (∀ x ∈ a, f x = true) →
      List.dropWhile f (a ++ b) = List.dropWhile f b
  | [], _, _ => rfl
  | x :: a, b, h => by
    have hx : f x = true := h x (by simp)
    rw [List.cons_append, List.dropWhile_cons, if_pos hx]
    exact dropWhile_append_of_all f a b (fun y hy => h y (by simp [hy]))

theorem length_filter_not_add {α : Type} (p : α → Bool) :
    ∀ l : List α, (l.filter (fun x => !(p x))).length + (l.filter p).length = l.length
  | [] => rfl
  | x :: l => by
    cases hx : p x <;>
      simp [List.filter_cons, hx, ← length_filter_not_add p l] <;> omega

theorem find?_filter_of_imp {α : Type} (p q : α → Bool) (himp : ∀ x, p x = true → q x = true) :
    ∀ l : List α, List.find? p (l.filter q) = List.find? p l
  | [] => rfl
  | x :: l => by
    cases hq : q x with
    | true =>
      rw [List.filter_cons, if_pos hq, List.find?_cons, List.find?_cons]
      cases hp : p x
      · simpa [hp] using find?_filter_of_imp p q himp l
      · simp [hp]
    | false =>
      have hp : p x = false := by
        cases hpx : p x
        · rfl
        · rw [himp x hpx] at hq; exact absurd hq (by simp)
      rw [List.filter_cons, if_neg (by simp [hq]), List.find?_cons_of_neg _ (by simp [hp])]
      exact find?_filter_of_imp p q himp l

theorem find?_append_of_some {α : Type} (p : α → Bool) {x : α} :
    ∀ {a : List α} (b : List α), List.find? p a = some x →
      List.find? p (a ++ b) = some x
  | [], _, h => by simp at h
  | y :: a, b, h => by
    cases hp : p y
    · rw [List.find?_cons_of_neg _ (by simp [hp])] at h
      rw [List.cons_append, List.find?_cons_of_neg _ (by simp [hp])]
      exact find?_append_of_some p b h
    · rw [List.find?_cons_of_pos _ hp] at h
      rw [List.cons_append, List.find?_cons_of_pos _ hp]
      exact h

theorem sum_ite_eq_one {α : Type} [DecidableEq α] (a : α) :
    ∀ l : List α, l.Nodup → a ∈ l →
      (l.map (fun c => if a = c then (1 : ℚ) else 0)).sum = 1
  | [], _, ha => absurd ha (by simp)
  | x :: l, hnd, ha => by
    rcases List.mem_cons.mp ha with h | h
    · subst h
      have hnotmem : a ∉ l := (List.nodup_cons.mp hnd).1
      have hz : (l.map (fun c => if a = c then (1 : ℚ) else 0)).sum = 0 := by
        apply List.sum_eq_zero
        intro q hq
        rcases List.mem_map.mp hq with ⟨c, hc, hce⟩
        rw [if_neg (by rintro rfl; exact hnotmem hc)] at hce
        exact hce.symm
      simp [hz]
    · have hne : a ≠ x := by
        rintro rfl; exact (List.nodup_cons.mp hnd).1 h
      have := sum_ite_eq_one a l (List.nodup_cons.mp hnd).2 h
      simp [hne, this]

theorem sum_ite_eq_zero {α : Type} [DecidableEq α] (a : α) (l : List α) (ha : a ∉ l) :
    (l.map (fun c => if a = c then (1 : ℚ) else 0)).sum = 0 := by
  apply List.sum_eq_zero
  intro q hq
  rcases List.mem_map.mp hq with ⟨c, hc, hce⟩
  rw [if_neg (by rintro rfl; exact ha hc)] at hce
  exact hce.symm

/-!  ## Lemmas on the Column Mask Applier  -/

theorem remove_extra_entries_append (p j : List String)
    (hp : ∀ t ∈ p, isBoolTok t = true) (hj : ∀ t ∈ j, isBoolTok t = false) :
    remove_extra_entries (p ++ j) = p := by
  unfold remove_extra_entries
  rw [List.reverse_append,
      dropWhile_append_of_all _ _ _
        (fun x hx => by simp [hj x (List.mem_reverse.mp hx)])]
  cases hpr : p.reverse with
  | nil =>
    have : p = [] := by simpa using congrArg List.reverse hpr
    simp [this]
  | cons y ys =>
    have hy : isBoolTok y = true := by
      apply hp
      have : y ∈ p.reverse := by rw [hpr]; simp
      exact List.mem_reverse.mp this
    rw [List.dropWhile_cons, if_neg (by simp [hy]), ← hpr, List.reverse_reverse]

/-- C3: the claim's reconciliation rule "strip trailing non-boolean tokens
until lengths match or a boolean token is found" fails on the code: with the
mask `["True", "", ""]` and a 2-column dataframe, stripping one blank already
makes the lengths match (the claim predicts success), but
`remove_extra_entries` never consults the length — it strips both blanks and
`apply_RFECV_mask` then fails with the length-mismatch AssertionError. -/
theorem C3_counterexample :
    apply_RFECV_mask ["True", "", ""] [dfAB] = .error (maskLenError 1 2) ∧
    reconcileClaim 2 ["True", "", ""] = ["True", ""] ∧
    (reconcileClaim 2 ["True", "", ""]).length = dfAB.ncols := by
  refine ⟨by decide, by decide, by decide⟩

/-- C3 (amended): when token count differs from the dataframe's column
count, the mask applier strips tokens that are not exactly "True"/"False"
(after trimming whitespace) from the end of the mask until a boolean token is
found (or the mask is exhausted) — the length is not consulted while
stripping; if the lengths still differ after stripping, the call fails with a
length-mismatch error that names both lengths; with a mask whose boolean
part matches the column count followed by extra trailing non-boolean (e.g.
blank) tokens, reconciliation trims them and the call succeeds. -/
theorem C3_mask_reconciliation (p j : List String) (df : DataFrame)
    (hp : ∀ t ∈ p, isBoolTok t = true)
    (hj : ∀ t ∈ j, isBoolTok t = false)
    (hlen : p.length = df.ncols) (hne : j ≠ []) :
    (∃ out, apply_RFECV_mask (p ++ j) [df] = .ok out) ∧
    (∀ (mask2 : List String) (df2 : DataFrame),
      mask2.length ≠ df2.ncols →
      (remove_extra_entries mask2).length ≠ df2.ncols →
      apply_RFECV_mask mask2 [df2]
        = .error (maskLenError (remove_extra_entries mask2).length df2.ncols)) := by
  constructor
  · have hlen2 : (p ++ j).length ≠ df.ncols := by
      rw [List.length_append, ← hlen]
      have : 0 < j.length := List.length_pos.mpr hne
      omega
    have hrm : remove_extra_entries (p ++ j) = p := remove_extra_entries_append p j hp hj
    refine ⟨[df.dropColsAt (falseIndexes p)], ?_⟩
    simp only [apply_RFECV_mask, applyMaskLoop, if_pos hlen2, hrm,
               if_neg (show ¬(p.length ≠ df.ncols) by simp [hlen]), List.nil_append]
  · intro mask2 df2 h1 h2
    unfold apply_RFECV_mask applyMaskLoop
    simp only [if_pos h1, if_pos h2]

/-- C3 witness: a concrete mask with a 2-token boolean part and 2 trailing
junk tokens succeeds on the 2-column dataframe, and a concrete irreconcilable
mask fails with the error naming both lengths. -/
theorem C3_mask_reconciliation_witness :
    (∃ out, apply_RFECV_mask (["True", "False"] ++ ["", " "]) [dfAB] = .ok out) ∧
    apply_RFECV_mask [""] [dfAB] = .error (maskLenError 0 2) :=
  ⟨(C3_mask_reconciliation ["True", "False"] ["", " "] dfAB (by decide) (by decide)
      (by decide) (by decide)).1,
   (C3_mask_reconciliation ["True", "False"] ["", " "] dfAB (by decide) (by decide)
      (by decide) (by decide)).2 [""] dfAB (by decide) (by decide)⟩

theorem not_mem_falseIndexesFrom :
    ∀ (mask : List String) (k j : Nat), j < k → j ∉ falseIndexesFrom k mask
  | [], _, _, _ => by simp [falseIndexesFrom]
  | t :: rest, k, j, hj => by
    unfold falseIndexesFrom
    by_cases ht : pyStrip t == "False"
    · rw [if_pos ht]
      intro hmem
      rcases List.mem_cons.mp hmem with h | h
      · omega
      · exact not_mem_falseIndexesFrom rest (k + 1) j (by omega) h
    · rw [if_neg ht]
      exact not_mem_falseIndexesFrom rest (k + 1) j (by omega)

theorem dropColsFrom_congr (idxs idxs2 : List Nat) :
    ∀ (cols : List (String × List Val)) (k : Nat),
      (∀ m, k ≤ m → (idxs.contains m = idxs2.contains m)) →
      dropColsFrom idxs k cols = dropColsFrom idxs2 k cols
  | [], _, _ => rfl
  | c :: cols, k, h => by
    unfold dropColsFrom
    rw [h k (le_refl k)]
    by_cases hk : idxs2.contains k
    · simp only [if_pos hk]
      exact dropColsFrom_congr idxs idxs2 cols (k + 1) (fun m hm => h m (by omega))
    · simp only [if_neg hk]
      rw [dropColsFrom_congr idxs idxs2 cols (k + 1) (fun m hm => h m (by omega))]

theorem dropColsFrom_false_zip :
    ∀ (cols : List (String × List Val)) (mask : List String) (k : Nat),
      cols.length = mask.length →
      dropColsFrom (falseIndexesFrom k mask) k cols
        = ((cols.zip mask).filter (fun pr => !(pyStrip pr.2 == "False"))).map Prod.fst
  | [], [], _, _ => rfl
  | [], _ :: _, _, h => by simp at h
  | _ :: _, [], _, h => by simp at h
  | c :: cols, t :: mask, k, h => by
    have hlen : cols.length = mask.length := by simpa using h
    by_cases ht : pyStrip t == "False"
    · have hidx : falseIndexesFrom k (t :: mask) = k :: falseIndexesFrom (k + 1) mask := by
        rw [falseIndexesFrom, if_pos ht]
      rw [hidx]
      unfold dropColsFrom
      rw [if_pos (by simp)]
      rw [dropColsFrom_congr (k :: falseIndexesFrom (k + 1) mask)
            (falseIndexesFrom (k + 1) mask) cols (k + 1)
            (fun m hm => by
              simp only [List.contains_cons]
              have : (m == k) = false := by
                simp only [beq_eq_false_iff_ne, ne_eq]
                omega
              rw [this, Bool.false_or])]
      rw [dropColsFrom_false_zip cols mask (k + 1) hlen]
      simp [List.filter_cons, ht]
    · have hidx : falseIndexesFrom k (t :: mask) = falseIndexesFrom (k + 1) mask := by
        rw [falseIndexesFrom, if_neg ht]
      rw [hidx]
      unfold dropColsFrom
      rw [if_neg (by
        intro hmem
        exact not_mem_falseIndexesFrom mask (k + 1) k (by omega)
          ((contains_iff_mem_nat _ _).mp hmem))]
      rw [dropColsFrom_false_zip cols mask (k + 1) hlen]
      simp [List.filter_cons, ht]

theorem zip_filter_true_length :
    ∀ (cols : List (String × List Val)) (mask : List String),
      cols.length = mask.length →
      (∀ t ∈ mask, pyStrip t = "True" ∨ pyStrip t = "False") →
      (((cols.zip mask).filter (fun pr => !(pyStrip pr.2 == "False"))).map Prod.fst).length
        = (mask.filter (fun t => pyStrip t == "True")).length
  | [], [], _, _ => rfl
  | [], _ :: _, h, _ => by simp at h
  | _ :: _, [], h, _ => by simp at h
  | c :: cols, t :: mask, h, hb => by
    have hlen : cols.length = mask.length := by simpa using h
    have ih := zip_filter_true_length cols mask hlen (fun u hu => hb u (by simp [hu]))
    rcases hb t (by simp) with ht | ht <;>
      simp [List.filter_cons, ht, ih]

/-- C4: in a single `apply_RFECV_mask` call over several dataframes, the
drop-index list is accumulated across inputs and never reset — the second
dataframe is dropped with the first input's collected "False" positions
appended again (`falseIndexes mask ++ falseIndexes mask`) — and for the
first input, whose mask length matches its column count exactly, the output
column count equals the number of "True" tokens in the mask. -/
theorem C4_index_accumulation (mask : List String) (df1 df2 : DataFrame)
    (hb : ∀ t ∈ mask, pyStrip t = "True" ∨ pyStrip t = "False")
    (h1 : mask.length = df1.ncols) (h2 : mask.length = df2.ncols) :
    apply_RFECV_mask mask [df1, df2]
      = .ok [df1.dropColsAt (falseIndexes mask),
             df2.dropColsAt (falseIndexes mask ++ falseIndexes mask)] ∧
    (df1.dropColsAt (falseIndexes mask)).ncols
      = (mask.filter (fun t => pyStrip t == "True")).length := by
  constructor
  · simp only [apply_RFECV_mask, applyMaskLoop,
               if_neg (show ¬(mask.length ≠ df1.ncols) by simp [h1]),
               if_neg (show ¬(mask.length ≠ df2.ncols) by simp [h2]),
               List.nil_append]
  · show (dropColsFrom (falseIndexes mask) 0 df1.cols).length = _
    rw [show falseIndexes mask = falseIndexesFrom 0 mask from rfl,
        dropColsFrom_false_zip df1.cols mask 0 (by simpa [DataFrame.ncols] using h1.symm)]
    exact zip_filter_true_length df1.cols mask
      (by simpa [DataFrame.ncols] using h1.symm) hb

/-- C4 witness: a concrete 2-token mask applied to the same 2-column
dataframe twice. -/
theorem C4_index_accumulation_witness :
    apply_RFECV_mask ["True", "False"] [dfAB, dfAB]
      = .ok [dfAB.dropColsAt (falseIndexes ["True", "False"]),
             dfAB.dropColsAt (falseIndexes ["True", "False"]
               ++ falseIndexes ["True", "False"])] ∧
    (dfAB.dropColsAt (falseIndexes ["True", "False"])).ncols
      = ((["True", "False"] : List String).filter
          (fun t => pyStrip t == "True")).length :=
  C4_index_accumulation ["True", "False"] dfAB dfAB (by decide) (by decide) (by decide)

/-!  ## Getter and setter theorems (claims C2, C6)  -/

/-- C2: the claim says every derived-attribute getter fails on an unset
backing value, but the `Y_test` getter has no `None` check: on a fresh
instance it returns the `None` sentinel instead of raising — accessing the
test target while unset yields a null result, not an initialization error. -/
theorem C2_counterexample :
    DataBase.Y_test_get data_base_init = Except.ok PyObj.none ∧
    data_base_init._Y_test = PyObj.none := ⟨rfl, rfl⟩

/-- C2 (amended): every getter of a derived attribute EXCEPT the test-target
getter fails with a descriptive initialization error while its backing value
is unset; the test-target getter (`Y_test`) returns its backing value
unconditionally, so an unset test target is returned as the null sentinel. -/
theorem C2_unset_getters (db : DataBase)
    (h1 : db._raw_data = PyObj.none) (h2 : db._clean_X_data = PyObj.none)
    (h3 : db._original = PyObj.none) (h4 : db._target = PyObj.none)
    (h5 : db._X_train = PyObj.none) (h6 : db._X_test = PyObj.none)
    (h7 : db._Y_train = PyObj.none)
    (h8 : db._test_accession_numbers = PyObj.none) :
    db.raw_data_get = .error "Initialize raw data by setting raw_data=<path.csv>" ∧
    db.clean_X_data_get = .error "Initialize clean_X_data by calling clean_data()" ∧
    db.original_get = .error "Initialize original by calling clean_data()" ∧
    db.target_get = .error "Initialize target by calling clean_data()" ∧
    db.X_train_get = .error "Initialize X_train by calling stratified_data_split()" ∧
    db.X_test_get = .error "Initialize X_test by calling stratified_data_split()" ∧
    db.Y_train_get = .error "Initialize Y_train by calling stratified_data_split()" ∧
    db.test_accession_numbers_get
      = .error "Initialize test_accession_numbers by calling stratified_data_split()" ∧
    db.Y_test_get = .ok db._Y_test := by
  refine ⟨?_, ?_, ?_, ?_, ?_, ?_, ?_, ?_, rfl⟩ <;>
    simp [DataBase.raw_data_get, DataBase.clean_X_data_get, DataBase.original_get,
          DataBase.target_get, DataBase.X_train_get, DataBase.X_test_get,
          DataBase.Y_train_get, DataBase.test_accession_numbers_get,
          h1, h2, h3, h4, h5, h6, h7, h8]

/-- C2 amended witness: the fresh instance. -/
theorem C2_unset_getters_witness :
    data_base_init.raw_data_get
      = .error "Initialize raw data by setting raw_data=<path.csv>" ∧
    data_base_init.clean_X_data_get
      = .error "Initialize clean_X_data by calling clean_data()" ∧
    data_base_init.original_get
      = .error "Initialize original by calling clean_data()" ∧
    data_base_init.target_get
      = .error "Initialize target by calling clean_data()" ∧
    data_base_init.X_train_get
      = .error "Initialize X_train by calling stratified_data_split()" ∧
    data_base_init.X_test_get
      = .error "Initialize X_test by calling stratified_data_split()" ∧
    data_base_init.Y_train_get
      = .error "Initialize Y_train by calling stratified_data_split()" ∧
    data_base_init.test_accession_numbers_get
      = .error "Initialize test_accession_numbers by calling stratified_data_split()" ∧
    data_base_init.Y_test_get = .ok data_base_init._Y_test :=
  C2_unset_getters data_base_init rfl rfl rfl rfl rfl rfl rfl rfl

/-- C6: the claim says every listed setter (including the predict-override)
accepts an in-memory tabular object transparently, but the `predict` setter
calls `os.path.isfile(path)` without an `isinstance(path, str)` guard:
assigning an in-memory dataframe raises a TypeError from `os.stat` instead
of storing the value. -/
theorem C6_counterexample :
    DataBase.predict_set fs0 data_base_init (PyObj.df dfAB)
      = .error "TypeError: stat: path should be string, bytes, os.PathLike or integer" :=
  rfl

theorem pathOrObject_of_not_str (fs : FS) (v : PyObj)
    (hv : ∀ u : String, v ≠ PyObj.str u) : pathOrObject fs v = v := by
  cases v with
  | str u => exact absurd rfl (hv u)
  | _ => rfl

/-- C6 (amended): the guarded setters (raw data, clean features, train/test
features, train/test targets) accept either a loadable path (loaded and
parsed) or any non-path value (stored as-is); the predict-override setter
stores a non-file string as-is and loads-and-cleans an existing path, but it
lacks the string guard, so assigning any non-string in-memory value fails
with a TypeError instead of being stored. -/
theorem C6_setters (fs : FS) (db : DataBase) (v : PyObj) (s t : String)
    (d : DataFrame)
    (hv : ∀ u : String, v ≠ PyObj.str u)
    (hs : fs s = some d) (ht : fs t = Option.none) :
    ((db.raw_data_set fs v)._raw_data = v ∧
     (db.clean_X_data_set fs v)._clean_X_data = v ∧
     (db.X_train_set fs v)._X_train = v ∧
     (db.X_test_set fs v)._X_test = v ∧
     (db.Y_train_set fs v)._Y_train = v ∧
     (db.Y_test_set fs v)._Y_test = v) ∧
    ((db.raw_data_set fs (.str s))._raw_data = PyObj.df d ∧
     (db.clean_X_data_set fs (.str s))._clean_X_data = PyObj.df d ∧
     (db.X_train_set fs (.str s))._X_train = PyObj.df d ∧
     (db.X_test_set fs (.str s))._X_test = PyObj.df d ∧
     (db.Y_train_set fs (.str s))._Y_train = PyObj.df d ∧
     (db.Y_test_set fs (.str s))._Y_test = PyObj.df d) ∧
    ((db.raw_data_set fs (.str t))._raw_data = PyObj.str t ∧
     (db.clean_X_data_set fs (.str t))._clean_X_data = PyObj.str t ∧
     (db.X_train_set fs (.str t))._X_train = PyObj.str t ∧
     (db.X_test_set fs (.str t))._X_test = PyObj.str t ∧
     (db.Y_train_set fs (.str t))._Y_train = PyObj.str t ∧
     (db.Y_test_set fs (.str t))._Y_test = PyObj.str t) ∧
    (db.predict_set fs (.str t) = .ok { db with _predict := PyObj.str t } ∧
     ∃ e, db.predict_set fs v = .error e) := by
  have hobj := pathOrObject_of_not_str fs v hv
  have hsome : pathOrObject fs (PyObj.str s) = PyObj.df d := by
    simp [pathOrObject, hs]
  have hnone : pathOrObject fs (PyObj.str t) = PyObj.str t := by
    simp [pathOrObject, ht]
  refine ⟨⟨?_, ?_, ?_, ?_, ?_, ?_⟩, ⟨?_, ?_, ?_, ?_, ?_, ?_⟩,
          ⟨?_, ?_, ?_, ?_, ?_, ?_⟩, ?_, ?_⟩ <;>
    first
    | simp [DataBase.raw_data_set, DataBase.clean_X_data_set, DataBase.X_train_set,
            DataBase.X_test_set, DataBase.Y_train_set, DataBase.Y_test_set,
            hobj, hsome, hnone]
    | skip
  · simp [DataBase.predict_set, ht]
  · cases v with
    | str u => exact absurd rfl (hv u)
    | none => exact ⟨_, rfl⟩
    | df _ => exact ⟨_, rfl⟩
    | series _ _ => exact ⟨_, rfl⟩
    | arr _ => exact ⟨_, rfl⟩

/-- C6 amended witness: a concrete filesystem with one loadable file, an
in-memory array value, a loadable path and a missing path. -/
theorem C6_setters_witness :
    ((data_base_init.raw_data_set fsOne (PyObj.arr []))._raw_data = PyObj.arr [] ∧
     (data_base_init.clean_X_data_set fsOne (PyObj.arr []))._clean_X_data = PyObj.arr [] ∧
     (data_base_init.X_train_set fsOne (PyObj.arr []))._X_train = PyObj.arr [] ∧
     (data_base_init.X_test_set fsOne (PyObj.arr []))._X_test = PyObj.arr [] ∧
     (data_base_init.Y_train_set fsOne (PyObj.arr []))._Y_train = PyObj.arr [] ∧
     (data_base_init.Y_test_set fsOne (PyObj.arr []))._Y_test = PyObj.arr []) ∧
    ((data_base_init.raw_data_set fsOne (.str "data.csv"))._raw_data = PyObj.df dfAB ∧
     (data_base_init.clean_X_data_set fsOne (.str "data.csv"))._clean_X_data = PyObj.df dfAB ∧
     (data_base_init.X_train_set fsOne (.str "data.csv"))._X_train = PyObj.df dfAB ∧
     (data_base_init.X_test_set fsOne (.str "data.csv"))._X_test = PyObj.df dfAB ∧
     (data_base_init.Y_train_set fsOne (.str "data.csv"))._Y_train = PyObj.df dfAB ∧
     (data_base_init.Y_test_set fsOne (.str "data.csv"))._Y_test = PyObj.df dfAB) ∧
    ((data_base_init.raw_data_set fsOne (.str "missing.csv"))._raw_data = PyObj.str "missing.csv" ∧
     (data_base_init.clean_X_data_set fsOne (.str "missing.csv"))._clean_X_data = PyObj.str "missing.csv" ∧
     (data_base_init.X_train_set fsOne (.str "missing.csv"))._X_train = PyObj.str "missing.csv" ∧
     (data_base_init.X_test_set fsOne (.str "missing.csv"))._X_test = PyObj.str "missing.csv" ∧
     (data_base_init.Y_train_set fsOne (.str "missing.csv"))._Y_train = PyObj.str "missing.csv" ∧
     (data_base_init.Y_test_set fsOne (.str "missing.csv"))._Y_test = PyObj.str "missing.csv") ∧
    (data_base_init.predict_set fsOne (.str "missing.csv")
       = .ok { data_base_init with _predict := PyObj.str "missing.csv" } ∧
     ∃ e, data_base_init.predict_set fsOne (PyObj.arr []) = .error e) :=
  C6_setters fsOne data_base_init (PyObj.arr []) "data.csv" "missing.csv" dfAB
    (fun u => by simp) (by decide) (by decide)

/-!  ## Claim C1: the discarded `fillna` on the target column  -/

/-- C1: the claim (and the code's own comment) says the missing
`Bound Fraction` entries are replaced by the column mean before the target
vector is captured; but line 115 of `data_utils.py` discards the `fillna`
result (no assignment, no `inplace=True`), so on a raw input whose target
column is `[1.0, NaN]` the captured target vector still contains the missing
entry — even though the mean of the non-missing entries (1) is computed and
available (`seriesMean` below). -/
theorem C1_target_keeps_missing :
    (clean_raw_data fs0 dbExample).map (fun db => db._target)
      = .ok (PyObj.arr [Val.rat 1, Val.nan]) ∧
    [Val.rat 1, Val.nan].any Val.isNan = true ∧
    seriesMean [Val.rat 1, Val.nan] = .ok (some 1) ∧
    (clean_raw_data fs0 dbExample).map (fun db => db._target)
      ≠ .ok (PyObj.arr [Val.rat 1, Val.rat 1]) := by
  refine ⟨by decide, by decide, by decide, by decide⟩

/-!  ## Claim C10: totality of the mean-imputation helper  -/

theorem sumCount_eq : ∀ vs : List Val, (∀ v ∈ vs, Val.isStr v = false) →
    sumCount vs = .ok ((vs.filterMap Val.toRat?).sum, (vs.filterMap Val.toRat?).length)
  | [], _ => rfl
  | .str s :: _, h => absurd (h (.str s) (by simp)) (by simp [Val.isStr])
  | .nan :: rest, h => by
    rw [show sumCount (Val.nan :: rest) = sumCount rest from rfl,
        sumCount_eq rest (fun v hv => h v (by simp [hv]))]
    simp [List.filterMap_cons, Val.toRat?]
  | .rat q :: rest, h => by
    rw [show sumCount (Val.rat q :: rest)
          = (match sumCount rest with
             | .ok (total, count) => .ok (total + q, count + 1)
             | .error e => .error e) from rfl,
        sumCount_eq rest (fun v hv => h v (by simp [hv]))]
    simp [List.filterMap_cons, Val.toRat?, add_comm]

theorem filterMap_toRat_eq_nil (vs : List Val) (h : vs.all Val.isNan = true) :
    vs.filterMap Val.toRat? = [] := by
  rw [List.filterMap_eq_nil_iff]
  intro v hv
  have := List.all_eq_true.mp h v hv
  cases v with
  | nan => rfl
  | rat q => simp [Val.isNan] at this
  | str s => simp [Val.isNan] at this

/-- C10: `fill_nan` is only total when the named column has at least one
non-missing numeric value.  (1) If every entry of the column is missing, the
accumulated count is zero and the call fails with the division-by-zero error
instead of returning a dataframe.  (2) If at least one numeric value is
present (and, as everywhere in the pipeline, the column holds no strings),
the division is safe: the count of non-missing entries is non-zero and every
missing entry is replaced by total/count computed over the non-missing
entries only, the present entries being kept unchanged. -/
theorem C10_fill_nan :
    (∀ (df : DataFrame) (col : String) (vs : List Val),
      df.getCol? col = some vs → vs.all Val.isNan = true →
      fill_nan df col = .error "ZeroDivisionError: division by zero") ∧
    (∀ (df : DataFrame) (col : String) (vs : List Val),
      df.getCol? col = some vs →
      (∀ v ∈ vs, Val.isStr v = false) → (∃ q : ℚ, Val.rat q ∈ vs) →
      (vs.filterMap Val.toRat?).length ≠ 0 ∧
      fill_nan df col = .ok (df.setCol col (vs.map (fun v =>
        if v.isNan then
          Val.rat ((vs.filterMap Val.toRat?).sum
            / ((vs.filterMap Val.toRat?).length : ℚ))
        else v)))) := by
  constructor
  · intro df col vs hget hnan
    have hstr : ∀ v ∈ vs, Val.isStr v = false := by
      intro v hv
      have := List.all_eq_true.mp hnan v hv
      cases v with
      | nan => rfl
      | rat q => simp [Val.isNan] at this
      | str s => simp [Val.isNan] at this
    have hnil := filterMap_toRat_eq_nil vs hnan
    simp only [fill_nan, hget, sumCount_eq vs hstr, hnil]
    rfl
  · intro df col vs hget hstr hex
    have hlen : (vs.filterMap Val.toRat?).length ≠ 0 := by
      rcases hex with ⟨q, hq⟩
      have : q ∈ vs.filterMap Val.toRat? :=
        List.mem_filterMap.mpr ⟨Val.rat q, hq, rfl⟩
      intro h0
      rw [List.length_eq_zero] at h0
      rw [h0] at this
      simp at this
    refine ⟨hlen, ?_⟩
    simp only [fill_nan, hget, sumCount_eq vs hstr, if_neg hlen]

/-- C10 witness: the all-missing column fails with the division-by-zero
error; the half-missing column `[2, NaN]` is filled with the mean 2 of its
single present value. -/
theorem C10_fill_nan_witness :
    fill_nan dfAllNan "P" = .error "ZeroDivisionError: division by zero" ∧
    fill_nan dfHalfNan "P" = .ok (dfHalfNan.setCol "P"
      (([Val.rat 2, Val.nan]).map (fun v =>
        if v.isNan then
          Val.rat ((([Val.rat 2, Val.nan]).filterMap Val.toRat?).sum
            / (((([Val.rat 2, Val.nan]).filterMap Val.toRat?)).length : ℚ))
        else v))) :=
  ⟨C10_fill_nan.1 dfAllNan "P" [Val.nan, Val.nan] rfl (by decide),
   (C10_fill_nan.2 dfHalfNan "P" [Val.rat 2, Val.nan] rfl (by decide)
     ⟨2, by decide⟩).2⟩

/-!  ## Claim C9: min-max normalization  -/

theorem foldl_min_le_init : ∀ (l : List ℚ) (q : ℚ), l.foldl min q ≤ q
  | [], q => le_refl q
  | x :: l, q => by
    rw [List.foldl_cons]
    exact le_trans (foldl_min_le_init l (min q x)) (min_le_left q x)

theorem foldl_min_le_mem : ∀ (l : List ℚ) (q x : ℚ), x ∈ l → l.foldl min q ≤ x
  | [], _, _, hx => absurd hx (by simp)
  | y :: l, q, x, hx => by
    rw [List.foldl_cons]
    rcases List.mem_cons.mp hx with h | h
    · subst h
      exact le_trans (foldl_min_le_init l (min q x)) (min_le_right q x)
    · exact foldl_min_le_mem l (min q y) x h

theorem le_foldl_max_init : ∀ (l : List ℚ) (q : ℚ), q ≤ l.foldl max q
  | [], q => le_refl q
  | x :: l, q => by
    rw [List.foldl_cons]
    exact le_trans (le_max_left q x) (le_foldl_max_init l (max q x))

theorem le_foldl_max_mem : ∀ (l : List ℚ) (q x : ℚ), x ∈ l → x ≤ l.foldl max q
  | [], _, _, hx => absurd hx (by simp)
  | y :: l, q, x, hx => by
    rw [List.foldl_cons]
    rcases List.mem_cons.mp hx with h | h
    · subst h
      exact le_trans (le_max_right q x) (le_foldl_max_init l (max q x))
    · exact le_foldl_max_mem l (max q y) x h

theorem colMin_le (vs : List Val) (x : ℚ) (hx : x ∈ vs.filterMap Val.toRat?) :
    colMin vs ≤ x := by
  unfold colMin
  cases hfm : vs.filterMap Val.toRat? with
  | nil => rw [hfm] at hx; simp at hx
  | cons q qs =>
    rw [hfm] at hx
    rcases List.mem_cons.mp hx with h | h
    · subst h; exact foldl_min_le_init qs x
    · exact foldl_min_le_mem qs q x h

theorem le_colMax (vs : List Val) (x : ℚ) (hx : x ∈ vs.filterMap Val.toRat?) :
    x ≤ colMax vs := by
  unfold colMax
  cases hfm : vs.filterMap Val.toRat? with
  | nil => rw [hfm] at hx; simp at hx
  | cons q qs =>
    rw [hfm] at hx
    rcases List.mem_cons.mp hx with h | h
    · subst h; exact le_foldl_max_init qs x
    · exact le_foldl_max_mem qs q x h

/-- C9: after `normalize_and_reshape`, the identifier series is reattached in
front and every feature column is min-max scaled independently; for a
non-constant numeric column the observed minimum maps to 0 and the observed
maximum maps to 1 (each entry scaled pointwise, missing entries staying
missing); a constant column (min equals max) is handled without division by
zero — sklearn replaces the zero range by 1 — and every present value maps to
0.  (Row indexes are positional in this embedding, so `reset_index` keeps
them the contiguous range 0..n-1.) -/
theorem C9_normalize (df : DataFrame) (labels : String × List Val) (vs : List Val)
    (hnum : ∀ c ∈ df.cols, c.2.all (fun v => !(Val.isStr v)) = true)
    (hrows : 1 ≤ df.nrows)
    (hvs : (vs.filterMap Val.toRat?).isEmpty = false)
    (hvstr : ∀ v ∈ vs, Val.isStr v = false) :
    (normalize_and_reshape df labels
      = .ok ⟨labels :: df.cols.map (fun c => (c.1, minMaxCol c.2))⟩) ∧
    (colMin vs ≠ colMax vs →
      ∃ f : Val → Val, minMaxCol vs = vs.map f ∧
        f (Val.rat (colMin vs)) = Val.rat 0 ∧
        f (Val.rat (colMax vs)) = Val.rat 1) ∧
    (colMin vs = colMax vs →
      minMaxCol vs = vs.map (fun v => if v.isNan then Val.nan else Val.rat 0)) := by
  refine ⟨?_, ?_, ?_⟩
  · have hany : df.cols.any (fun c => c.2.any Val.isStr) = false := by
      rw [List.any_eq_false]
      intro c hc
      have hall := List.all_eq_true.mp (hnum c hc)
      simp only [Bool.not_eq_true'] at hall
      rw [Bool.not_eq_true, List.any_eq_false]
      intro x hx
      simp [hall x hx]
    have hnz : ¬(df.nrows = 0) := by omega
    simp only [normalize_and_reshape, hany, Bool.false_eq_true, if_false, if_neg hnz]
  · intro hne
    have hsub : colMax vs - colMin vs ≠ 0 := sub_ne_zero.mpr (Ne.symm hne)
    refine ⟨fun v =>
      match v with
      | .rat x => Val.rat ((x - colMin vs) / (colMax vs - colMin vs))
      | _ => Val.nan, ?_, ?_, ?_⟩
    · simp only [minMaxCol, hvs, Bool.false_eq_true, if_false, if_neg hsub]
    · simp only [sub_self, zero_div]
    · simp only [div_self hsub]
  · intro heq
    have hzero : colMax vs - colMin vs = 0 := by rw [heq, sub_self]
    simp only [minMaxCol, hvs, Bool.false_eq_true, if_false, if_pos hzero]
    apply List.map_congr_left
    intro v hv
    cases v with
    | nan => rfl
    | str s => exact absurd (hvstr (.str s) hv) (by simp [Val.isStr])
    | rat x =>
      have hmem : x ∈ vs.filterMap Val.toRat? :=
        List.mem_filterMap.mpr ⟨Val.rat x, hv, rfl⟩
      have hx : x = colMin vs :=
        le_antisymm (heq ▸ le_colMax vs x hmem) (colMin_le vs x hmem)
      simp [Val.isNan, ← hx, sub_self]

/-- C9 witness: the 1-column table `[1, 3]` with a reattached identifier
series, and the column `[1, 3, NaN]` whose min maps to 0 and max to 1. -/
theorem C9_normalize_witness :
    (normalize_and_reshape dfNorm ("Accession Number", [Val.str "a", Val.str "b"])
      = .ok ⟨("Accession Number", [Val.str "a", Val.str "b"])
          :: dfNorm.cols.map (fun c => (c.1, minMaxCol c.2))⟩) ∧
    (∃ f : Val → Val,
      minMaxCol [Val.rat 1, Val.rat 3, Val.nan]
        = [Val.rat 1, Val.rat 3, Val.nan].map f ∧
      f (Val.rat (colMin [Val.rat 1, Val.rat 3, Val.nan])) = Val.rat 0 ∧
      f (Val.rat (colMax [Val.rat 1, Val.rat 3, Val.nan])) = Val.rat 1) := by
  have h := C9_normalize dfNorm ("Accession Number", [Val.str "a", Val.str "b"])
    [Val.rat 1, Val.rat 3, Val.nan] (by decide) (by decide) (by decide) (by decide)
  exact ⟨h.1, h.2.1 (by decide)⟩

/-!  ## Claim C8: one-hot encoding  -/

theorem dummy_name_ne_category (category : String) (c : Val) :
    ((category ++ "_" ++ valName c) == category) = false := by
  rw [beq_eq_false_iff_ne]
  intro h
  have hlen := congrArg String.length h
  rw [String.length_append, String.length_append] at hlen
  have : ("_" : String).length = 1 := rfl
  omega

theorem one_hot_cols (df : DataFrame) (category : String) (vs : List Val)
    (hget : df.getCol? category = some vs) :
    one_hot_encode df category
      = .ok ⟨df.cols.filter (fun c => !(c.1 == category)) ++ dummyCols category vs⟩ := by
  simp only [one_hot_encode, hget, List.filter_append]
  have hdummy : (dummyCols category vs).filter (fun c => !(c.1 == category))
      = dummyCols category vs := by
    rw [List.filter_eq_self]
    intro dc hdc
    rcases List.mem_map.mp hdc with ⟨c, _, hce⟩
    rw [← hce]
    simp [dummy_name_ne_category category c]
  rw [hdummy]

theorem getD_map_lt (f : Val → Val) (vs : List Val) (i : Nat) (h : i < vs.length)
    (d d' : Val) : (vs.map f).getD i d = f (vs.getD i d') := by
  rw [List.getD_eq_getElem?_getD, List.getD_eq_getElem?_getD, List.getElem?_map,
      List.getElem?_eq_getElem h]
  simp

theorem mem_observedCats (vs : List Val) (v : Val) (hv : v ∈ vs)
    (hnan : v.isNan = false) : v ∈ observedCats vs := by
  unfold observedCats
  rw [List.mem_dedup, List.mem_filter]
  exact ⟨hv, by simp [hnan]⟩

theorem nan_not_mem_observedCats (vs : List Val) (v : Val) (hnan : v.isNan = true) :
    v ∉ observedCats vs := by
  unfold observedCats
  rw [List.mem_dedup, List.mem_filter]
  rintro ⟨-, hb⟩
  simp [hnan] at hb

/-- C8 (amended): one-hot encoding a column with k distinct observed
categories replaces it with exactly k indicator columns (each named with the
category-name prefix), appended to the table with the original column
removed; in every row whose entry in the column is non-missing the k
indicator values sum to 1, while a row with a missing entry has all k
indicators equal to 0. -/
theorem C8_one_hot (df : DataFrame) (category : String) (vs : List Val)
    (hget : df.getCol? category = some vs) :
    one_hot_encode df category
      = .ok ⟨df.cols.filter (fun c => !(c.1 == category)) ++ dummyCols category vs⟩ ∧
    (dummyCols category vs).length = (observedCats vs).length ∧
    (∀ dc ∈ dummyCols category vs, ∃ c ∈ observedCats vs,
      dc.1 = category ++ "_" ++ valName c) ∧
    (∀ i, i < vs.length →
      ((dummyCols category vs).map
        (fun dc => ((dc.2.getD i Val.nan).toRat?).getD 0)).sum
        = if (vs.getD i Val.nan).isNan then 0 else 1) := by
  refine ⟨one_hot_cols df category vs hget, by simp [dummyCols], ?_, ?_⟩
  · intro dc hdc
    rcases List.mem_map.mp hdc with ⟨c, hc, hce⟩
    exact ⟨c, hc, by rw [← hce]⟩
  · intro i hi
    have hrow : ((dummyCols category vs).map
        (fun dc => ((dc.2.getD i Val.nan).toRat?).getD 0))
        = (observedCats vs).map
            (fun c => if vs.getD i Val.nan = c then (1 : ℚ) else 0) := by
      unfold dummyCols
      rw [List.map_map]
      apply List.map_congr_left
      intro c _
      simp only [Function.comp]
      rw [getD_map_lt _ vs i hi _ Val.nan]
      by_cases h : vs.getD i Val.nan = c
      · rw [if_pos h, if_pos h]; rfl
      · rw [if_neg h, if_neg h]; rfl
    rw [hrow]
    have hmem : vs.getD i Val.nan ∈ vs := by
      rw [List.getD_eq_getElem?_getD, List.getElem?_eq_getElem hi]
      exact List.getElem_mem hi
    by_cases hnan : (vs.getD i Val.nan).isNan = true
    · rw [if_pos hnan]
      exact sum_ite_eq_zero _ _ (nan_not_mem_observedCats vs _ hnan)
    · rw [if_neg hnan]
      exact sum_ite_eq_one _ _ (List.nodup_dedup _)
        (mem_observedCats vs _ hmem (by simpa using hnan))

/-- C8 amended witness: the column `["a", NaN]` has k = 1 observed category;
row 0 sums to 1, row 1 (missing entry) sums to 0. -/
theorem C8_one_hot_witness :
    one_hot_encode dfC8 "C"
      = .ok ⟨dfC8.cols.filter (fun c => !(c.1 == "C"))
          ++ dummyCols "C" [Val.str "a", Val.nan]⟩ ∧
    (dummyCols "C" [Val.str "a", Val.nan]).length = 1 ∧
    ((dummyCols "C" [Val.str "a", Val.nan]).map
      (fun dc => ((dc.2.getD 0 Val.nan).toRat?).getD 0)).sum = 1 ∧
    ((dummyCols "C" [Val.str "a", Val.nan]).map
      (fun dc => ((dc.2.getD 1 Val.nan).toRat?).getD 0)).sum = 0 := by
  have h := C8_one_hot dfC8 "C" [Val.str "a", Val.nan] rfl
  refine ⟨h.1, by decide, ?_, ?_⟩
  · have := h.2.2.2 0 (by decide)
    simpa using this
  · have := h.2.2.2 1 (by decide)
    simpa using this

/-- C8: the claim as stated fails on the code: `pd.get_dummies` gives a row
with a missing category entry an all-zero indicator vector, so in the
dataframe `dfC8` (category column `["a", NaN]`, k = 1) the indicator values
of row 1 sum to 0, not 1. -/
theorem C8_counterexample :
    one_hot_encode dfC8 "C"
      = .ok ⟨[("W", [Val.rat 5, Val.rat 6]), ("C_a", [Val.rat 1, Val.rat 0])]⟩ ∧
    (observedCats [Val.str "a", Val.nan]).length = 1 ∧
    ((dummyCols "C" [Val.str "a", Val.nan]).map
      (fun dc => ((dc.2.getD 1 Val.nan).toRat?).getD 0)).sum = 0 ∧
    ((0 : ℚ) = 1) = False := by
  refine ⟨by decide, by decide, by decide, by simp⟩

/-!  ## Claim C5: the train/test split  -/

theorem except_bind_ok {α β : Type} (x : α) (f : α → Except String β) :
    (Except.ok x >>= f) = f x := rfl

theorem find?_map_pres {α β : Type} (g : α → β) (p : α → Bool) (q : β → Bool)
    (hpq : ∀ a, q (g a) = p a) :
    ∀ l : List α, List.find? q (l.map g) = (List.find? p l).map g
  | [] => rfl
  | a :: l => by
    cases hp : p a
    · rw [List.map_cons, List.find?_cons_of_neg _ (by simp [hpq a, hp]),
          List.find?_cons_of_neg _ (by simp [hp])]
      exact find?_map_pres g p q hpq l
    · rw [List.map_cons, List.find?_cons_of_pos _ (by simp [hpq a, hp]),
          List.find?_cons_of_pos _ hp]
      rfl

@[simp] theorem getCol?_ilocRows (df : DataFrame) (idxs : List Nat) (n : String) :
    (df.ilocRows idxs).getCol? n = (df.getCol? n).map (fun vs => takeIdx vs idxs) := by
  have h := find?_map_pres
    (fun c : String × List Val => (c.1, idxs.map (fun i => c.2.getD i Val.nan)))
    (fun c => c.1 == n) (fun c => c.1 == n) (fun a => rfl) df.cols
  show (List.find? (fun c => c.1 == n)
      (df.cols.map (fun c => (c.1, idxs.map (fun i => c.2.getD i Val.nan))))).map
        (fun c => c.2)
    = ((List.find? (fun c => c.1 == n) df.cols).map (fun c => c.2)).map
        (fun vs => takeIdx vs idxs)
  rw [h]
  cases List.find? (fun c => c.1 == n) df.cols <;> rfl

@[simp] theorem hasCol_ilocRows (df : DataFrame) (idxs : List Nat) (n : String) :
    (df.ilocRows idxs).hasCol n = df.hasCol n := by
  unfold DataFrame.hasCol
  rw [getCol?_ilocRows]
  cases df.getCol? n <;> rfl

theorem hasCol_dropColPure_self (df : DataFrame) (n : String) :
    (df.dropColPure n).hasCol n = false := by
  unfold DataFrame.hasCol DataFrame.getCol? DataFrame.dropColPure
  have : List.find? (fun c => c.1 == n)
      (df.cols.filter (fun c => !(c.1 == n))) = Option.none := by
    rw [List.find?_eq_none]
    intro c hc
    have := (List.mem_filter.mp hc).2
    simp only [Bool.not_eq_true'] at this
    simp [this]
  rw [this]
  rfl

theorem nrows_ilocRows (df : DataFrame) (idxs : List Nat) (h : df.cols ≠ []) :
    (df.ilocRows idxs).nrows = idxs.length := by
  unfold DataFrame.ilocRows DataFrame.nrows
  cases hc : df.cols with
  | nil => exact absurd hc h
  | cons c cols => simp

theorem cols_ne_nil_of_hasCol (df : DataFrame) (n : String)
    (h : df.hasCol n = true) : df.cols ≠ [] := by
  intro hnil
  unfold DataFrame.hasCol DataFrame.getCol? at h
  rw [hnil] at h
  simp [List.find?] at h

theorem X_train_get_of_df (db : DataBase) (d : DataFrame)
    (h : db._X_train = PyObj.df d) : db.X_train_get = .ok (PyObj.df d) := by
  simp [DataBase.X_train_get, h]

theorem X_test_get_of_df (db : DataBase) (d : DataFrame)
    (h : db._X_test = PyObj.df d) : db.X_test_get = .ok (PyObj.df d) := by
  simp [DataBase.X_test_get, h]

theorem dropCol_of_hasCol (df : DataFrame) (n : String) (h : df.hasCol n = true) :
    df.dropCol n = .ok (df.dropColPure n) := by
  simp [DataFrame.dropCol, h]

/-- C5: with the predict-override unset and clean data plus target present,
`data_split` assigns the partition from exactly one fold of the 5-fold
shuffled generator — the last iteration of the loop wins — so the final
state's train/test features and targets are those of fold 4; the test
partition's identifiers are retained, the identifier column is then stripped
from both feature sets, the train/test row-index sets are disjoint and their
sizes sum to the clean feature set's row count.  With the predict-override
set, `data_split` fails with the mode-conflict assertion. -/
theorem C5_data_split (fs : FS) (db db2 : DataBase) (cdf : DataFrame)
    (tgt : List Val) (perm : List Nat)
    (hpred : db._predict = PyObj.none)
    (hclean : db._clean_X_data = PyObj.df cdf)
    (htgt : db._target = PyObj.arr tgt)
    (hperm : perm.Perm (List.range cdf.nrows))
    (hn : 5 ≤ cdf.nrows)
    (hacc : cdf.hasCol "Accession Number" = true)
    (hpred2 : db2._predict ≠ PyObj.none) :
    ((data_split fs db perm).map (fun d => d._X_train)
        = .ok (PyObj.df ((cdf.ilocRows (trainFold perm 4)).dropColPure "Accession Number")) ∧
     (data_split fs db perm).map (fun d => d._X_test)
        = .ok (PyObj.df ((cdf.ilocRows (testFold perm 4)).dropColPure "Accession Number")) ∧
     (data_split fs db perm).map (fun d => d._Y_train)
        = .ok (PyObj.arr (takeIdx tgt (trainFold perm 4))) ∧
     (data_split fs db perm).map (fun d => d._Y_test)
        = .ok (PyObj.arr (takeIdx tgt (testFold perm 4))) ∧
     (data_split fs db perm).map (fun d => d._test_accession_numbers)
        = .ok (PyObj.series "Accession Number"
            (takeIdx (cdf.getColD "Accession Number") (testFold perm 4)))) ∧
    ((cdf.ilocRows (trainFold perm 4)).dropColPure "Accession Number").hasCol
        "Accession Number" = false ∧
    ((cdf.ilocRows (testFold perm 4)).dropColPure "Accession Number").hasCol
        "Accession Number" = false ∧
    (∀ i ∈ trainFold perm 4, i ∉ testFold perm 4) ∧
    (trainFold perm 4).length + (testFold perm 4).length = cdf.nrows ∧
    (cdf.ilocRows (trainFold perm 4)).nrows + (cdf.ilocRows (testFold perm 4)).nrows
      = cdf.nrows ∧
    data_split fs db2 perm = .error "Remove data_split() if using your own data" := by
  obtain ⟨accvals, haccv⟩ := Option.isSome_iff_exists.mp hacc
  have hgcold : cdf.getColD "Accession Number" = accvals := by
    unfold DataFrame.getColD
    rw [haccv]
    rfl
  have hget1 : db.clean_X_data_get = .ok (PyObj.df cdf) := by
    simp [DataBase.clean_X_data_get, hclean]
  have hget2 : db.target_get = .ok (PyObj.arr tgt) := by
    simp [DataBase.target_get, htgt]
  have hn5 : ¬(cdf.nrows < 5) := by omega
  have hpredF : ¬(db._predict ≠ PyObj.none) := by simp [hpred]
  -- counting facts about the last fold
  have hpermlen : perm.length = cdf.nrows :=
    hperm.length_eq.trans (List.length_range cdf.nrows)
  have hTsub : (testFold perm 4).Sublist perm :=
    List.Sublist.trans (List.take_sublist _ _) (List.drop_sublist _ _)
  have hTnodup : (testFold perm 4).Nodup :=
    hTsub.nodup (hperm.nodup_iff.mpr (List.nodup_range cdf.nrows))
  have hTmem : ∀ i ∈ testFold perm 4, i < cdf.nrows := fun i hi =>
    List.mem_range.mp (hperm.mem_iff.mp (hTsub.subset hi))
  have hdisj : ∀ i ∈ trainFold perm 4, i ∉ testFold perm 4 := by
    intro i hi
    have := (List.mem_filter.mp hi).2
    simp only [Bool.not_eq_true'] at this
    intro hmem
    rw [(contains_iff_mem_nat _ _).mpr hmem] at this
    exact absurd this (by simp)
  have hfiltT : ((List.range cdf.nrows).filter
      (fun i => (testFold perm 4).contains i)).length = (testFold perm 4).length := by
    have hp : ((List.range cdf.nrows).filter
        (fun i => (testFold perm 4).contains i)).Perm (testFold perm 4) := by
      rw [List.perm_ext_iff_of_nodup (List.Nodup.filter _ (List.nodup_range _)) hTnodup]
      intro a
      rw [List.mem_filter, List.mem_range]
      constructor
      · rintro ⟨-, h⟩
        exact (contains_iff_mem_nat _ _).mp h
      · intro h
        exact ⟨hTmem a h, (contains_iff_mem_nat _ _).mpr h⟩
    exact hp.length_eq
  have hsizes : (trainFold perm 4).length + (testFold perm 4).length = cdf.nrows := by
    have := length_filter_not_add (fun i => (testFold perm 4).contains i)
      (List.range cdf.nrows)
    unfold trainFold
    rw [hpermlen]
    rw [hfiltT] at this
    simpa using this
  have hcne : cdf.cols ≠ [] := cols_ne_nil_of_hasCol cdf "Accession Number" hacc
  have hxte : ((kfSplits perm).foldl (splitAssign fs cdf tgt) db).X_test_get
      = .ok (PyObj.df (cdf.ilocRows (testFold perm 4))) :=
    X_test_get_of_df _ _ rfl
  have hxtr : (DataBase.test_accession_numbers_set fs
        ((kfSplits perm).foldl (splitAssign fs cdf tgt) db)
        (PyObj.series "Accession Number"
          (takeIdx (cdf.getColD "Accession Number") (testFold perm 4)))).X_train_get
      = .ok (PyObj.df (cdf.ilocRows (trainFold perm 4))) :=
    X_train_get_of_df _ _ rfl
  have hdropR : (cdf.ilocRows (trainFold perm 4)).dropCol "Accession Number"
      = .ok ((cdf.ilocRows (trainFold perm 4)).dropColPure "Accession Number") :=
    dropCol_of_hasCol _ _ (by rw [hasCol_ilocRows]; exact hacc)
  have hdropT : (cdf.ilocRows (testFold perm 4)).dropCol "Accession Number"
      = .ok ((cdf.ilocRows (testFold perm 4)).dropColPure "Accession Number") :=
    dropCol_of_hasCol _ _ (by rw [hasCol_ilocRows]; exact hacc)
  have hcolT : (cdf.ilocRows (testFold perm 4)).getCol? "Accession Number"
      = some (takeIdx (cdf.getColD "Accession Number") (testFold perm 4)) := by
    rw [getCol?_ilocRows, haccv, hgcold]
    rfl
  have hred : data_split fs db perm
      = .ok (DataBase.X_test_set fs
          (DataBase.X_train_set fs
            (DataBase.test_accession_numbers_set fs
              ((kfSplits perm).foldl (splitAssign fs cdf tgt) db)
              (PyObj.series "Accession Number"
                (takeIdx (cdf.getColD "Accession Number") (testFold perm 4))))
            (PyObj.df ((cdf.ilocRows (trainFold perm 4)).dropColPure "Accession Number")))
          (PyObj.df ((cdf.ilocRows (testFold perm 4)).dropColPure "Accession Number"))) := by
    unfold data_split
    rw [if_neg hpredF, hget1]
    simp only [except_bind_ok, asDf, if_neg hn5, hget2, asArr,
               hxte, hxtr, hdropR, hdropT, hcolT, colOrKeyError, except_bind_ok]
    rfl
  refine ⟨⟨?_, ?_, ?_, ?_, ?_⟩,
          hasCol_dropColPure_self _ _, hasCol_dropColPure_self _ _,
          hdisj, hsizes, ?_, ?_⟩
  · rw [hred]; rfl
  · rw [hred]; rfl
  · rw [hred]; rfl
  · rw [hred]; rfl
  · rw [hred]; rfl
  · rw [nrows_ilocRows cdf _ hcne, nrows_ilocRows cdf _ hcne]
    exact hsizes
  · simp [data_split, if_pos hpred2]

/-- C5 witness: a 5-row clean table split with the identity shuffle order;
and an instance whose predict-override is a set string fails with the
mode-conflict assertion. -/
theorem C5_data_split_witness :
    (data_split fs0 dbSplit [0, 1, 2, 3, 4]).map (fun d => d._X_train)
      = .ok (PyObj.df ((cdfSplit.ilocRows (trainFold [0, 1, 2, 3, 4] 4)).dropColPure
          "Accession Number")) ∧
    (trainFold [0, 1, 2, 3, 4] 4).length + (testFold [0, 1, 2, 3, 4] 4).length
      = cdfSplit.nrows ∧
    data_split fs0 dbPredictSet [0, 1, 2, 3, 4]
      = .error "Remove data_split() if using your own data" := by
  have h := C5_data_split fs0 dbSplit dbPredictSet cdfSplit tgtSplit [0, 1, 2, 3, 4]
    rfl rfl rfl (List.Perm.refl _) (by decide) (by decide) (by decide)
  exact ⟨h.1.1, h.2.2.2.2.1, h.2.2.2.2.2.2⟩

/-!  ## Claim C7: row-count preservation through `clean_raw_data`  -/

theorem getCol?_eq_some_mem (df : DataFrame) (n : String) (vs : List Val)
    (h : df.getCol? n = some vs) :
    ∃ c, c ∈ df.cols ∧ c.1 = n ∧ c.2 = vs := by
  unfold DataFrame.getCol? at h
  cases hf : List.find? (fun c => c.1 == n) df.cols with
  | none => rw [hf] at h; simp at h
  | some c =>
    rw [hf] at h
    have hp := List.find?_some hf
    simp only [beq_iff_eq] at hp
    exact ⟨c, List.mem_of_find?_eq_some hf, hp, Option.some.inj h⟩

theorem colsLen_length (df : DataFrame) (N : Nat) (n : String) (vs : List Val)
    (hlen : ColsLen N df) (h : df.getCol? n = some vs) : vs.length = N := by
  obtain ⟨c, hc, -, hv⟩ := getCol?_eq_some_mem df n vs h
  rw [← hv]
  exact hlen c hc

theorem colsLen_setCol (df : DataFrame) (N : Nat) (n : String) (vs : List Val)
    (h : ColsLen N df) (hvlen : vs.length = N) : ColsLen N (df.setCol n vs) := by
  intro c hc
  unfold DataFrame.setCol at hc
  rcases List.mem_map.mp hc with ⟨c0, hc0, hce⟩
  by_cases he : (c0.1 == n) = true
  · rw [← hce, if_pos he]
    exact hvlen
  · rw [← hce, if_neg he]
    exact h c0 hc0

theorem all_nonstr_map_fill (vs : List Val) (q : ℚ)
    (h : ∀ v ∈ vs, Val.isStr v = false) :
    (vs.map (fun v => if v.isNan then Val.rat q else v)).all
      (fun v => !(Val.isStr v)) = true := by
  rw [List.all_eq_true]
  intro v hv
  rcases List.mem_map.mp hv with ⟨v0, hv0, hve⟩
  by_cases hn : v0.isNan = true
  · rw [← hve, if_pos hn]; rfl
  · rw [← hve, if_neg hn]
    simp [h v0 hv0]

theorem dummy_col_nonstr (vs : List Val) (c : Val) :
    (vs.map (fun v => if v = c then Val.rat 1 else Val.rat 0)).all
      (fun v => !(Val.isStr v)) = true := by
  rw [List.all_eq_true]
  intro v hv
  rcases List.mem_map.mp hv with ⟨v0, -, hve⟩
  by_cases he : v0 = c
  · rw [← hve, if_pos he]; rfl
  · rw [← hve, if_neg he]; rfl

theorem one_hot_colsLen (df : DataFrame) (cat : String) (vs : List Val) (N : Nat)
    (hlen : ColsLen N df) (hvN : vs.length = N) :
    ColsLen N ⟨df.cols.filter (fun c => !(c.1 == cat)) ++ dummyCols cat vs⟩ := by
  intro c hc
  rcases List.mem_append.mp hc with h | h
  · exact hlen c (List.mem_filter.mp h).1
  · rcases List.mem_map.mp h with ⟨cc, -, hce⟩
    rw [← hce]
    simpa using hvN

theorem getCol?_one_hot_pres (df : DataFrame) (cat : String) (vs : List Val)
    (n : String) (vsn : List Val) (hne : (n == cat) = false)
    (hn : df.getCol? n = some vsn) :
    (⟨df.cols.filter (fun c => !(c.1 == cat)) ++ dummyCols cat vs⟩ : DataFrame).getCol? n
      = some vsn := by
  unfold DataFrame.getCol? at hn
  have himp : ∀ x : String × List Val, (x.1 == n) = true → (!(x.1 == cat)) = true := by
    intro x hx
    have hx1 : x.1 = n := by simpa using hx
    rw [hx1]
    simp [hne]
  have hfe := find?_filter_of_imp (fun c => c.1 == n) (fun c => !(c.1 == cat)) himp df.cols
  cases hf : List.find? (fun c => c.1 == n) df.cols with
  | none => rw [hf] at hn; simp at hn
  | some c =>
    rw [hf] at hn
    show (List.find? (fun c => c.1 == n)
        (df.cols.filter (fun c => !(c.1 == cat)) ++ dummyCols cat vs)).map
          (fun c => c.2) = some vsn
    rw [find?_append_of_some _ _ (hfe.trans hf)]
    exact hn

theorem getCol?_dropColPure (df : DataFrame) (m n : String) (hne : (n == m) = false) :
    (df.dropColPure m).getCol? n = df.getCol? n := by
  have himp : ∀ x : String × List Val, (x.1 == n) = true → (!(x.1 == m)) = true := by
    intro x hx
    have hx1 : x.1 = n := by simpa using hx
    rw [hx1]
    simp [hne]
  show (List.find? (fun c => c.1 == n)
      (df.cols.filter (fun c => !(c.1 == m)))).map (fun c => c.2)
    = (List.find? (fun c => c.1 == n) df.cols).map (fun c => c.2)
  rw [find?_filter_of_imp (fun c => c.1 == n) (fun c => !(c.1 == m)) himp df.cols]

theorem encodeAll_props : ∀ (cats : List String) (df : DataFrame),
    (∀ cat ∈ cats, df.hasCol cat = true) → cats.Nodup →
    ∃ df2, encodeAll df cats = .ok df2 ∧
      (∀ N, ColsLen N df → ColsLen N df2) ∧
      (∀ n vsn, (∀ cat ∈ cats, (n == cat) = false) → df.getCol? n = some vsn →
        df2.getCol? n = some vsn) ∧
      (∀ S : List String,
        (∀ c ∈ df.cols, c.2.all (fun v => !(Val.isStr v)) = true
          ∨ c.1 ∈ S ∨ c.1 ∈ cats) →
        (∀ c ∈ df2.cols, c.2.all (fun v => !(Val.isStr v)) = true ∨ c.1 ∈ S))
  | [], df, _, _ =>
    ⟨df, rfl, fun _ h => h, fun _ _ _ h => h, fun S h c hc => by
      rcases h c hc with h1 | h2 | h3
      · exact Or.inl h1
      · exact Or.inr h2
      · exact absurd h3 (by simp)⟩
  | cat :: rest, df, hall, hnd => by
    obtain ⟨vs, hvs⟩ := Option.isSome_iff_exists.mp (hall cat (by simp))
    have henc := one_hot_cols df cat vs hvs
    have hnd1 : rest.Nodup := (List.nodup_cons.mp hnd).2
    have hcatne : cat ∉ rest := (List.nodup_cons.mp hnd).1
    have hall1 : ∀ c2 ∈ rest,
        (⟨df.cols.filter (fun c => !(c.1 == cat)) ++ dummyCols cat vs⟩
          : DataFrame).hasCol c2 = true := by
      intro c2 hc2
      have hne : (c2 == cat) = false := by
        rw [beq_eq_false_iff_ne]
        rintro rfl
        exact hcatne hc2
      obtain ⟨vs2, hvs2⟩ := Option.isSome_iff_exists.mp (hall c2 (by simp [hc2]))
      unfold DataFrame.hasCol
      rw [getCol?_one_hot_pres df cat vs c2 vs2 hne hvs2]
      rfl
    obtain ⟨df2, hdf2, hlen, hpres, hstr⟩ := encodeAll_props rest
      ⟨df.cols.filter (fun c => !(c.1 == cat)) ++ dummyCols cat vs⟩ hall1 hnd1
    refine ⟨df2, ?_, ?_, ?_, ?_⟩
    · rw [show encodeAll df (cat :: rest)
            = (match one_hot_encode df cat with
               | .ok dfx => encodeAll dfx rest
               | .error e => .error e) from rfl,
          henc]
      exact hdf2
    · intro N hN
      exact hlen N (one_hot_colsLen df cat vs N hN (colsLen_length df N cat vs hN hvs))
    · intro n vsn hnall hn
      exact hpres n vsn (fun c2 hc2 => hnall c2 (by simp [hc2]))
        (getCol?_one_hot_pres df cat vs n vsn (hnall cat (by simp)) hn)
    · intro S hS
      apply hstr S
      intro c hc
      rcases List.mem_append.mp hc with hmem | hmem
      · have hq := (List.mem_filter.mp hmem).2
        rcases hS c (List.mem_filter.mp hmem).1 with h1 | h2 | h3
        · exact Or.inl h1
        · exact Or.inr (Or.inl h2)
        · rcases List.mem_cons.mp h3 with he | he
          · exfalso
            rw [he] at hq
            simp at hq
          · exact Or.inr (Or.inr he)
      · rcases List.mem_map.mp hmem with ⟨cc, -, hce⟩
        exact Or.inl (by rw [← hce]; exact dummy_col_nonstr vs cc)

theorem dropAll_props : ∀ (names : List String) (df : DataFrame),
    (∀ m ∈ names, df.hasCol m = true) → names.Nodup →
    ∃ df2, dropAll df names = .ok df2 ∧
      (∀ N, ColsLen N df → ColsLen N df2) ∧
      (∀ n vsn, (∀ m ∈ names, (n == m) = false) → df.getCol? n = some vsn →
        df2.getCol? n = some vsn) ∧
      (∀ c ∈ df2.cols, c ∈ df.cols ∧ c.1 ∉ names)
  | [], df, _, _ => ⟨df, rfl, fun _ h => h, fun _ _ _ h => h,
      fun c hc => ⟨hc, by simp⟩⟩
  | m :: rest, df, hall, hnd => by
    have hdrop : df.dropCol m = .ok (df.dropColPure m) :=
      dropCol_of_hasCol df m (hall m (by simp))
    have hall1 : ∀ m2 ∈ rest, (df.dropColPure m).hasCol m2 = true := by
      intro m2 hm2
      have hne : (m2 == m) = false := by
        rw [beq_eq_false_iff_ne]
        rintro rfl
        exact (List.nodup_cons.mp hnd).1 hm2
      unfold DataFrame.hasCol
      rw [getCol?_dropColPure df m m2 hne]
      exact hall m2 (by simp [hm2])
    obtain ⟨df2, hdf2, hlen, hpres, horig⟩ :=
      dropAll_props rest (df.dropColPure m) hall1 (List.nodup_cons.mp hnd).2
    refine ⟨df2, ?_, ?_, ?_, ?_⟩
    · rw [show dropAll df (m :: rest)
            = (match df.dropCol m with
               | .ok dfx => dropAll dfx rest
               | .error e => .error e) from rfl,
          hdrop]
      exact hdf2
    · intro N hN
      apply hlen
      intro c hc
      exact hN c (List.mem_filter.mp hc).1
    · intro n vsn hnall hn
      apply hpres n vsn (fun m2 hm2 => hnall m2 (by simp [hm2]))
      rw [getCol?_dropColPure df m n (hnall m (by simp))]
      exact hn
    · intro c hc
      obtain ⟨hc1, hc2⟩ := horig c hc
      have hcf := List.mem_filter.mp hc1
      refine ⟨hcf.1, ?_⟩
      intro hmem
      rcases List.mem_cons.mp hmem with he | he
      · rw [he] at hcf
        simpa using hcf.2
      · exact hc2 he

theorem fill_nan_ok (df : DataFrame) (col : String) (vs : List Val)
    (hget : df.getCol? col = some vs)
    (hstr : ∀ v ∈ vs, Val.isStr v = false)
    (hex : ∃ q : ℚ, Val.rat q ∈ vs) :
    fill_nan df col = .ok (df.setCol col (vs.map (fun v =>
      if v.isNan then
        Val.rat ((vs.filterMap Val.toRat?).sum
          / ((vs.filterMap Val.toRat?).length : ℚ))
      else v))) := by
  have hlen : (vs.filterMap Val.toRat?).length ≠ 0 := by
    rcases hex with ⟨q, hq⟩
    have hmem : q ∈ vs.filterMap Val.toRat? :=
      List.mem_filterMap.mpr ⟨Val.rat q, hq, rfl⟩
    intro h0
    rw [List.length_eq_zero] at h0
    rw [h0] at hmem
    simp at hmem
  simp only [fill_nan, hget, sumCount_eq vs hstr, if_neg hlen]

theorem normalize_ok (df : DataFrame) (labels : String × List Val)
    (hstr : ∀ c ∈ df.cols, c.2.all (fun v => !(Val.isStr v)) = true)
    (hnz : df.nrows ≠ 0) :
    normalize_and_reshape df labels
      = .ok ⟨labels :: df.cols.map (fun c => (c.1, minMaxCol c.2))⟩ := by
  have hany : df.cols.any (fun c => c.2.any Val.isStr) = false := by
    rw [List.any_eq_false]
    intro c hc
    have hall := List.all_eq_true.mp (hstr c hc)
    simp only [Bool.not_eq_true'] at hall
    rw [Bool.not_eq_true, List.any_eq_false]
    intro x hx
    simp [hall x hx]
  simp only [normalize_and_reshape, hany, Bool.false_eq_true, if_false, if_neg hnz]

theorem one_hot_ok_inv (df : DataFrame) (cat : String) (df2 : DataFrame)
    (h : one_hot_encode df cat = .ok df2) :
    ∃ vs, df.getCol? cat = some vs ∧
      df2 = ⟨df.cols.filter (fun c => !(c.1 == cat)) ++ dummyCols cat vs⟩ := by
  have h2 := h
  rw [one_hot_encode] at h2
  cases hget : df.getCol? cat with
  | none => rw [hget] at h2; simp at h2
  | some vs =>
    refine ⟨vs, rfl, ?_⟩
    rw [one_hot_cols df cat vs hget] at h
    exact (Option.some.inj (congrArg Except.toOption h)).symm

theorem fill_nan_ok_inv (df : DataFrame) (col : String) (df2 : DataFrame)
    (h : fill_nan df col = .ok df2) :
    ∃ vs q, df.getCol? col = some vs ∧
      df2 = df.setCol col (vs.map (fun v => if v.isNan then Val.rat q else v)) := by
  cases hget : df.getCol? col with
  | none => simp [fill_nan, hget] at h
  | some vs =>
    simp only [fill_nan, hget] at h
    cases hsc : sumCount vs with
    | error e => simp [hsc] at h
    | ok tc =>
      obtain ⟨total, count⟩ := tc
      simp only [hsc] at h
      by_cases hz : count = 0
      · rw [if_pos hz] at h
        simp at h
      · rw [if_neg hz] at h
        exact ⟨vs, total / (count : ℚ), rfl,
          (Option.some.inj (congrArg Except.toOption h)).symm⟩

theorem dropCol_ok_inv (df : DataFrame) (m : String) (df2 : DataFrame)
    (h : df.dropCol m = .ok df2) : df2 = df.dropColPure m := by
  rw [DataFrame.dropCol] at h
  by_cases hc : df.hasCol m = true
  · rw [if_pos hc] at h
    exact (Option.some.inj (congrArg Except.toOption h)).symm
  · rw [if_neg hc] at h
    simp at h

theorem normalize_ok_inv (df : DataFrame) (labels : String × List Val)
    (df2 : DataFrame) (h : normalize_and_reshape df labels = .ok df2) :
    df2 = ⟨labels :: df.cols.map (fun c => (c.1, minMaxCol c.2))⟩ := by
  rw [normalize_and_reshape] at h
  by_cases h1 : df.cols.any (fun c => c.2.any Val.isStr) = true
  · rw [if_pos h1] at h
    simp at h
  · rw [if_neg h1] at h
    by_cases h2 : df.nrows = 0
    · rw [if_pos h2] at h
      simp at h
    · rw [if_neg h2] at h
      exact (Option.some.inj (congrArg Except.toOption h)).symm

theorem nrows_eq_of_colsLen (df : DataFrame) (N : Nat)
    (h : ColsLen N df) (hne : df.cols ≠ []) : df.nrows = N := by
  unfold DataFrame.nrows
  cases hc : df.cols with
  | nil => exact absurd hc hne
  | cons c cols => exact h c (by rw [hc]; simp)

theorem one_hot_nrows (df : DataFrame) (cat : String) (df2 : DataFrame)
    (hwf : df.Wf) (h : one_hot_encode df cat = .ok df2)
    (hex : ∃ c ∈ df.cols, (c.1 == cat) = false) :
    df2.nrows = df.nrows := by
  obtain ⟨vs, hget, hdf2⟩ := one_hot_ok_inv df cat df2 h
  have hcl : ColsLen df.nrows df2 := by
    rw [hdf2]
    exact one_hot_colsLen df cat vs df.nrows hwf
      (colsLen_length df df.nrows cat vs hwf hget)
  apply nrows_eq_of_colsLen df2 df.nrows hcl
  obtain ⟨c, hc, hcne⟩ := hex
  rw [hdf2]
  intro hnil
  have hfnil := (List.append_eq_nil.mp hnil).1
  have : c ∈ df.cols.filter (fun c => !(c.1 == cat)) :=
    List.mem_filter.mpr ⟨hc, by simp [hcne]⟩
  rw [hfnil] at this
  simp at this

theorem fill_nan_nrows (df : DataFrame) (col : String) (df2 : DataFrame)
    (hwf : df.Wf) (h : fill_nan df col = .ok df2) : df2.nrows = df.nrows := by
  obtain ⟨vs, q, hget, hdf2⟩ := fill_nan_ok_inv df col df2 h
  have hvslen : vs.length = df.nrows := colsLen_length df df.nrows col vs hwf hget
  have hcl : ColsLen df.nrows df2 := by
    rw [hdf2]
    exact colsLen_setCol df df.nrows col _ hwf (by simpa using hvslen)
  apply nrows_eq_of_colsLen df2 df.nrows hcl
  rw [hdf2]
  obtain ⟨c, hc, -, -⟩ := getCol?_eq_some_mem df col vs hget
  unfold DataFrame.setCol
  simp only [ne_eq, List.map_eq_nil_iff]
  exact List.ne_nil_of_mem hc

theorem dropCol_nrows (df : DataFrame) (m : String) (df2 : DataFrame)
    (hwf : df.Wf) (h : df.dropCol m = .ok df2)
    (hex : ∃ c ∈ df.cols, (c.1 == m) = false) :
    df2.nrows = df.nrows := by
  have hdf2 := dropCol_ok_inv df m df2 h
  have hcl : ColsLen df.nrows df2 := by
    rw [hdf2]
    intro c hc
    exact hwf c (List.mem_filter.mp hc).1
  apply nrows_eq_of_colsLen df2 df.nrows hcl
  obtain ⟨c, hc, hcne⟩ := hex
  rw [hdf2]
  intro hnil
  have : c ∈ df.cols.filter (fun c => !(c.1 == m)) :=
    List.mem_filter.mpr ⟨hc, by simp [hcne]⟩
  rw [show (df.dropColPure m).cols = df.cols.filter (fun c => !(c.1 == m)) from rfl]
    at hnil
  rw [hnil] at this
  simp at this

theorem normalize_nrows (df : DataFrame) (labels : String × List Val)
    (df2 : DataFrame) (hlab : labels.2.length = df.nrows)
    (h : normalize_and_reshape df labels = .ok df2) : df2.nrows = df.nrows := by
  rw [normalize_ok_inv df labels df2 h]
  show labels.2.length = df.nrows
  exact hlab

/-- C7: for every valid raw input, `clean_raw_data` succeeds and produces a
clean feature table whose row count equals the raw input's row count; and
each pipeline stage — one-hot encoding, mean imputation (`fill_nan`), column
drop, and min-max normalization with identifier re-attachment and index
reset — preserves the row count of any well-formed input it succeeds on. -/
theorem C7_clean_preserves_rows (fs : FS) (db : DataBase) (raw : DataFrame)
    (hraw : db._raw_data = PyObj.df raw) (hv : ValidRaw raw) :
    (∃ cdf, (clean_raw_data fs db).map (fun d => d._clean_X_data)
        = .ok (PyObj.df cdf) ∧ cdf.nrows = raw.nrows) ∧
    (∀ (df : DataFrame) (cat : String) (df2 : DataFrame), df.Wf →
      one_hot_encode df cat = .ok df2 → (∃ c ∈ df.cols, (c.1 == cat) = false) →
      df2.nrows = df.nrows) ∧
    (∀ (df : DataFrame) (col : String) (df2 : DataFrame), df.Wf →
      fill_nan df col = .ok df2 → df2.nrows = df.nrows) ∧
    (∀ (df : DataFrame) (m : String) (df2 : DataFrame), df.Wf →
      df.dropCol m = .ok df2 → (∃ c ∈ df.cols, (c.1 == m) = false) →
      df2.nrows = df.nrows) ∧
    (∀ (df : DataFrame) (labels : String × List Val) (df2 : DataFrame),
      labels.2.length = df.nrows → normalize_and_reshape df labels = .ok df2 →
      df2.nrows = df.nrows) := by
  obtain ⟨hwf, hpos, hcats, hdrops, hpa, hnum, hbf, hpaex⟩ := hv
  have hcl0 : ColsLen raw.nrows raw := hwf
  obtain ⟨x1, hx1, hx1len, hx1pres, hx1str⟩ :=
    encodeAll_props categorical_data raw hcats (by decide)
  -- the target column, whose mean is computed (and then discarded)
  obtain ⟨bfRaw, hbfget⟩ :=
    Option.isSome_iff_exists.mp (hdrops "Bound Fraction" (by decide))
  have hbf1 : x1.getCol? "Bound Fraction" = some bfRaw :=
    hx1pres _ _ (by decide) hbfget
  have hbfD : raw.getColD "Bound Fraction" = bfRaw := by
    unfold DataFrame.getColD
    rw [hbfget]
    rfl
  have hbfstr : ∀ v ∈ bfRaw, Val.isStr v = false := by
    rw [hbfD] at hbf
    intro v hvmem
    have := List.all_eq_true.mp hbf v hvmem
    simpa using this
  have hsm : ∃ r, seriesMean bfRaw = .ok r := by
    simp only [seriesMean, sumCount_eq bfRaw hbfstr]
    by_cases hz : (bfRaw.filterMap Val.toRat?).length = 0
    · exact ⟨_, by rw [if_pos hz]⟩
    · exact ⟨_, by rw [if_neg hz]⟩
  obtain ⟨bfmean, hsm⟩ := hsm
  -- the identifier column
  obtain ⟨accRaw, haccget⟩ :=
    Option.isSome_iff_exists.mp (hdrops "Accession Number" (by decide))
  have hacc1 : x1.getCol? "Accession Number" = some accRaw :=
    hx1pres _ _ (by decide) haccget
  have hacclen : accRaw.length = raw.nrows :=
    colsLen_length raw raw.nrows _ accRaw hcl0 haccget
  -- dropping the non-feature columns
  have hdropsall : ∀ m ∈ columns_to_drop, x1.hasCol m = true := by
    intro m hm
    obtain ⟨vsm, hvm⟩ := Option.isSome_iff_exists.mp (hdrops m hm)
    have hdnc : ∀ m0 ∈ columns_to_drop, ∀ cat ∈ categorical_data,
        (m0 == cat) = false := by decide
    have hsome := hx1pres m vsm (hdnc m hm) hvm
    unfold DataFrame.hasCol
    rw [hsome]
    rfl
  obtain ⟨x2, hx2, hx2len, hx2pres, hx2orig⟩ :=
    dropAll_props columns_to_drop x1 hdropsall (by decide)
  -- the abundance column survives encoding and drops with its raw values
  obtain ⟨paRaw, hpaget⟩ := Option.isSome_iff_exists.mp hpa
  have hpanc : ∀ cat ∈ categorical_data,
      (("Protein Abundance" : String) == cat) = false := by decide
  have hpand : ∀ m ∈ columns_to_drop,
      (("Protein Abundance" : String) == m) = false := by decide
  have hpa1 : x1.getCol? "Protein Abundance" = some paRaw :=
    hx1pres _ _ hpanc hpaget
  have hpa2 : x2.getCol? "Protein Abundance" = some paRaw :=
    hx2pres _ _ hpand hpa1
  have hpalen : paRaw.length = raw.nrows :=
    colsLen_length raw raw.nrows _ paRaw hcl0 hpaget
  have hpastr : ∀ v ∈ paRaw, Val.isStr v = false := by
    obtain ⟨c, hcmem, hc1, hc2⟩ := getCol?_eq_some_mem raw _ paRaw hpaget
    have hok := hnum c hcmem (by rw [hc1]; decide) (by rw [hc1]; decide)
    intro v hvm
    have := List.all_eq_true.mp hok v (by rw [hc2]; exact hvm)
    simpa using this
  have hpaD : raw.getColD "Protein Abundance" = paRaw := by
    unfold DataFrame.getColD
    rw [hpaget]
    rfl
  have hpaex2 : ∃ q : ℚ, Val.rat q ∈ paRaw := by
    rw [hpaD] at hpaex
    rcases List.any_eq_true.mp hpaex with ⟨v, hvm, hvn⟩
    cases v with
    | rat q => exact ⟨q, hvm⟩
    | nan => simp [Val.isNan] at hvn
    | str s => exact absurd (hpastr _ hvm) (by simp [Val.isStr])
  have hx3 := fill_nan_ok x2 "Protein Abundance" paRaw hpa2 hpastr hpaex2
  set pav : List Val := paRaw.map (fun v =>
      if v.isNan then Val.rat ((paRaw.filterMap Val.toRat?).sum
        / ((paRaw.filterMap Val.toRat?).length : ℚ)) else v) with hpav
  -- every surviving column is numeric after the drops
  have hx2str : ∀ c ∈ x2.cols, c.2.all (fun v => !(Val.isStr v)) = true := by
    have hinit : ∀ c ∈ raw.cols, c.2.all (fun v => !(Val.isStr v)) = true
        ∨ c.1 ∈ columns_to_drop ∨ c.1 ∈ categorical_data := by
      intro c0 hc0
      by_cases hin1 : c0.1 ∈ categorical_data
      · exact Or.inr (Or.inr hin1)
      · by_cases hin2 : c0.1 ∈ columns_to_drop
        · exact Or.inr (Or.inl hin2)
        · exact Or.inl (hnum c0 hc0 hin1 hin2)
    intro c hc
    obtain ⟨hc1, hc2⟩ := hx2orig c hc
    rcases hx1str columns_to_drop hinit c hc1 with h1 | h2
    · exact h1
    · exact absurd h2 hc2
  have hpavlen : pav.length = raw.nrows := by
    rw [hpav]
    simpa using hpalen
  have hx3len : ColsLen raw.nrows (x2.setCol "Protein Abundance" pav) :=
    colsLen_setCol x2 raw.nrows _ pav (hx2len raw.nrows (hx1len raw.nrows hcl0)) hpavlen
  have hx3str : ∀ c ∈ (x2.setCol "Protein Abundance" pav).cols,
      c.2.all (fun v => !(Val.isStr v)) = true := by
    intro c hc
    unfold DataFrame.setCol at hc
    rcases List.mem_map.mp hc with ⟨c0, hc0, hce⟩
    by_cases he : (c0.1 == "Protein Abundance") = true
    · rw [← hce, if_pos he]
      rw [hpav]
      exact all_nonstr_map_fill paRaw _ hpastr
    · rw [← hce, if_neg he]
      exact hx2str c0 hc0
  have hx3ne : (x2.setCol "Protein Abundance" pav).cols ≠ [] := by
    obtain ⟨c, hc, -, -⟩ := getCol?_eq_some_mem x2 _ paRaw hpa2
    unfold DataFrame.setCol
    simp only [ne_eq, List.map_eq_nil_iff]
    exact List.ne_nil_of_mem hc
  have hx3rows : (x2.setCol "Protein Abundance" pav).nrows = raw.nrows :=
    nrows_eq_of_colsLen _ _ hx3len hx3ne
  have hx4 : normalize_and_reshape (x2.setCol "Protein Abundance" pav)
      ("Accession Number", accRaw)
      = .ok ⟨("Accession Number", accRaw)
          :: (x2.setCol "Protein Abundance" pav).cols.map
               (fun c => (c.1, minMaxCol c.2))⟩ :=
    normalize_ok _ _ hx3str (by rw [hx3rows]; omega)
  have hg0 : db.raw_data_get = .ok (PyObj.df raw) := by
    simp [DataBase.raw_data_get, hraw]
  refine ⟨⟨⟨("Accession Number", accRaw)
      :: (x2.setCol "Protein Abundance" pav).cols.map
           (fun c => (c.1, minMaxCol c.2))⟩, ?_, ?_⟩,
    one_hot_nrows, fill_nan_nrows, dropCol_nrows, normalize_nrows⟩
  · unfold clean_raw_data
    rw [hg0]
    simp only [except_bind_ok, asDf, hx1, hbf1, colOrKeyError, hsm, hacc1,
               hx2, hx3, hx4, except_bind_ok]
    rfl
  · show accRaw.length = raw.nrows
    exact hacclen

/-- C7 witness: the concrete 2-row raw input `exampleRaw`. -/
theorem C7_clean_preserves_rows_witness :
    ∃ cdf, (clean_raw_data fs0 dbExample).map (fun d => d._clean_X_data)
        = .ok (PyObj.df cdf) ∧ cdf.nrows = exampleRaw.nrows :=
  (C7_clean_preserves_rows fs0 dbExample exampleRaw rfl (by decide)).1

end ENM
